import Mathlib

/-!
Verification development for the real-time software audio mixer in
`src/sound.cpp` (namespace `sound`).

The C++ code is shallowly embedded: `float`/`double` arithmetic is modelled
over `ℚ`, sample buffers are `List ℚ` (interleaved floats), the fixed voice
table `playing_sounds` is a `List PlayingSound` of length 128, and the global
mixer state (voice table, `master_volume`, transport counters) is a
`SoundState` record threaded explicitly through the control-surface
operations.  Machine-integer details that the claims depend on are modelled
exactly (truncating float→int casts, the `& PLAYING_SOUNDS_MASK` handle
packing on `Nat`); the `while` loop of `fill_buffer_cb` is written with an
explicit iteration bound (`fuel`), which `fill_buffer_cb` instantiates large
enough that the guard `samples <= 0`, not the fuel, always terminates the
loop, mirroring the C++ control flow.
-/

namespace sound

/-- One interleaved stereo output frame (`mix[0]`, `mix[1]`). -/
abbrev Frame := ℚ × ℚ

/-- `das::lerp(a, b, t)`. -/
def lerp (a b t : ℚ) : ℚ := a + (b - a) * t

/-- `das::sign` on floats: 1 for positive, -1 for negative, 0 for zero. -/
def sign (x : ℚ) : ℚ := if 0 < x then 1 else if x < 0 then -1 else 0

/-- `das::clamp(t, lo, hi)`. -/
def clampQ (t lo hi : ℚ) : ℚ := if t < lo then lo else if t > hi then hi else t

/-- C++ `int64_t(q)` / `int(q)` on a float value: truncation toward zero. -/
def ratTrunc (q : ℚ) : Int := if q < 0 then -(Int.floor (-q)) else Int.floor q

/-- C++ `unsigned(pos)` on a `double`.  In every reachable mixer state
`pos ≥ 0`, where the conversion truncates like `floor`. -/
def uif (q : ℚ) : Nat := (Int.floor q).toNat

/-- `ONE_DIV_512`, the gain-smoothing step `1.f / 512`. -/
def oneDiv512 : ℚ := 1 / 512

/-- `struct PcmSound`: sample metadata plus the owned interleaved float
buffer.  `data = none` models a null `data` pointer. -/
structure PcmSound where
  frequency : Int
  samples : Int
  channels : Int
  data : Option (List ℚ)
deriving DecidableEq

/-- Default-constructed `PcmSound()`: 44100 Hz, 0 samples, mono, null data. -/
instance : Inhabited PcmSound := ⟨⟨44100, 0, 1, none⟩⟩

/-- `getDataMemorySize()` in floats: `channels * (samples + 4)`. -/
def PcmSound.dataFloats (s : PcmSound) : Nat := (s.channels * (s.samples + 4)).toNat

/-- `isValid()`: the data pointer is non-null. -/
def PcmSound.isValid (s : PcmSound) : Bool := s.data.isSome

/-- Extend a source buffer to `n` floats.  `memcpy` in the creators copies
`getDataMemorySize()` bytes, which reads past the end of the source array;
those trailing floats are unspecified in C++ and are modelled as zeros.  No
claim inspects them. -/
def padTo (l : List ℚ) (n : Nat) : List ℚ := l ++ List.replicate (n - l.length) 0

/-- Flatten a stereo frame list to the interleaved float layout. -/
def interleave : List Frame → List ℚ
  | [] => []
  | f :: r => f.1 :: f.2 :: interleave r

/-- `create_sound(frequency, data)` (mono synthesis).  Fails (empty asset)
when `frequency < 1` or the input is empty; on success copies the input and
duplicates the first sample at index `samples` (the guard frame). -/
def create_sound (frequency : Int) (input : List ℚ) : PcmSound :=
  if frequency < 1 ∨ input = [] then default
  else
    let samples : Int := input.length
    let buf := padTo input (input.length + 4)
    -- s.getData()[data.size] = s.getData()[0];
    let buf := buf.set input.length (buf.getD 0 0)
    ⟨frequency, samples, 1, some buf⟩

/-- `create_sound_stereo(frequency, data)`.  On success copies the frames and
duplicates the first frame at indices `2*samples`, `2*samples+1`. -/
def create_sound_stereo (frequency : Int) (input : List Frame) : PcmSound :=
  if frequency < 1 ∨ input = [] then default
  else
    let samples : Int := input.length
    let buf := padTo (interleave input) (2 * (input.length + 4))
    -- s.getData()[s.samples * 2] = s.getData()[0];
    let buf := buf.set (2 * input.length) (buf.getD 0 0)
    -- s.getData()[s.samples * 2 + 1] = s.getData()[1];
    let buf := buf.set (2 * input.length + 1) (buf.getD 1 0)
    ⟨frequency, samples, 2, some buf⟩

/-- The tail of `create_sound_from_file` after the decoder has produced
interleaved PCM (`channels`, `sampleRate`, `totalPCMFrameCount`, sample
data).  File IO, path validation and the decoder itself are external
collaborators (spec section 6); their successful output is taken as input
here.  Rejects channel counts other than 1 and 2, then copies
`channels * samples` floats and writes the guard frame. -/
def create_sound_from_decoded (channels sampleRate frames : Int)
    (pcm : List ℚ) : PcmSound :=
  if channels ≠ 1 ∧ channels ≠ 2 then default
  else
    let s : PcmSound := ⟨sampleRate, frames, channels, none⟩
    let buf := padTo (pcm.take (channels * frames).toNat) s.dataFloats
    let buf :=
      if channels = 2 then
        ((buf.set (2 * frames).toNat (buf.getD 0 0)).set (2 * frames + 1).toNat
          ((buf.set (2 * frames).toNat (buf.getD 0 0)).getD 1 0))
      else
        buf.set frames.toNat (buf.getD 0 0)
    ⟨sampleRate, frames, channels, some buf⟩

/-- Overwrite the first `count` entries of `buf` with entries of `src`
(`memcpy(dst, src, count * sizeof(float))`). -/
def copyInto (buf src : List ℚ) (count : Nat) : List ℚ :=
  match buf, src, count with
  | buf, _, 0 => buf
  | [], _, _ => []
  | _ :: bs, s :: ss, n + 1 => s :: copyInto bs ss n
  | b :: bs, [], n + 1 => b :: copyInto bs [] n

/-- The stereo write loop of `set_sound_data` (mono input into a stereo
asset): `soundData[i*2] = soundData[i*2+1] = ptr[i]` for `i < count`. -/
def copyIntoDup (buf src : List ℚ) (count : Nat) : List ℚ :=
  match buf, src, count with
  | buf, _, 0 => buf
  | [], _, _ => []
  | [b], _, _ + 1 => [b]
  | _ :: _ :: bs, s :: ss, n + 1 => s :: s :: copyIntoDup bs ss n
  | b :: b2 :: bs, [], n + 1 => b :: b2 :: copyIntoDup bs [] n

/-- The averaging write loop of `set_sound_data_stereo` (stereo input into a
mono asset): `soundData[i] = (ptr[i*2] + ptr[i*2+1]) * 0.5f`. -/
def copyIntoAvg (buf : List ℚ) (src : List Frame) (count : Nat) : List ℚ :=
  match buf, src, count with
  | buf, _, 0 => buf
  | [], _, _ => []
  | _ :: bs, f :: ss, n + 1 => (f.1 + f.2) * (1/2) :: copyIntoAvg bs ss n
  | b :: bs, [], n + 1 => b :: copyIntoAvg bs [] n

/-- `set_sound_data(sound, in_data)`: bulk mono sample write, then the guard
frame is refreshed from the (new) first frame. -/
def set_sound_data (sound : PcmSound) (in_data : List ℚ) : PcmSound :=
  match sound.data with
  | none => sound
  | some buf =>
    let count : Int := min sound.samples (in_data.length : Int)
    if count = 0 then sound
    else if sound.channels = 1 then
      let buf := copyInto buf in_data count.toNat
      let buf := buf.set sound.samples.toNat (buf.getD 0 0)
      { sound with data := some buf }
    else if sound.channels = 2 then
      let buf := copyIntoDup buf in_data count.toNat
      let buf := buf.set (2 * sound.samples).toNat (buf.getD 0 0)
      let buf := buf.set (2 * sound.samples + 1).toNat (buf.getD 1 0)
      { sound with data := some buf }
    else sound

/-- `set_sound_data_stereo(sound, in_data)`. -/
def set_sound_data_stereo (sound : PcmSound) (in_data : List Frame) : PcmSound :=
  match sound.data with
  | none => sound
  | some buf =>
    let count : Int := min sound.samples (in_data.length : Int)
    if count = 0 then sound
    else if sound.channels = 1 then
      let buf := copyIntoAvg buf in_data count.toNat
      let buf := buf.set sound.samples.toNat (buf.getD 0 0)
      { sound with data := some buf }
    else if sound.channels = 2 then
      let buf := copyInto buf (interleave in_data) (2 * count.toNat)
      let buf := buf.set (2 * sound.samples).toNat (buf.getD 0 0)
      let buf := buf.set (2 * sound.samples + 1).toNat (buf.getD 1 0)
      { sound with data := some buf }
    else sound

/-- `struct PlayingSound`: one voice slot.  The C++ voice holds a
`const PcmSound *`; the asset value is held inline here, `none` modelling a
null pointer. -/
structure PlayingSound where
  sound : Option PcmSound
  pos : ℚ
  startPos : ℚ
  stopPos : ℚ
  pitch : ℚ
  volume : ℚ
  pan : ℚ
  volumeL : ℚ
  volumeR : ℚ
  volumeTrendL : ℚ
  volumeTrendR : ℚ
  timeToStart : ℚ
  channels : Int
  version : Nat
  loop : Bool
  stopMode : Bool
  waitingStart : Bool
deriving DecidableEq

/-- `PlayingSound()` zero-initializes every field (`memset(this, 0, ...)`). -/
def PlayingSound.init : PlayingSound :=
  ⟨none, 0, 0, 0, 0, 0, 0, 0, 0, 0, 0, 0, 0, 0, false, false, false⟩

instance : Inhabited PlayingSound := ⟨PlayingSound.init⟩

/-- `isEmpty()`: no asset, not in stop-fade, not waiting to start. -/
def PlayingSound.isEmpty (s : PlayingSound) : Bool :=
  s.sound.isNone && !s.stopMode && !s.waitingStart

/-- `setStopMode()`. -/
def PlayingSound.setStopMode (s : PlayingSound) : PlayingSound :=
  if s.sound.isNone then { s with waitingStart := false }
  else if s.stopMode then { s with waitingStart := false }
  else
    let s := { s with version := s.version + 128 }
    if s.waitingStart then { s with waitingStart := false, sound := none }
    else
      let snd := s.sound.getD default
      let d : Nat → ℚ := fun i => (snd.data.getD []).getD i 0
      let s :=
        if s.channels = 1 then
          let val := d (uif s.pos)
          { s with volumeL := s.volumeL * val, volumeR := s.volumeR * val }
        else
          { s with volumeL := s.volumeL * d (uif s.pos * 2),
                   volumeR := s.volumeR * d (uif s.pos * 2 + 1) }
      { s with volumeTrendL := sign s.volumeL * -(1 / 10000),
               volumeTrendR := sign s.volumeR * -(1 / 10000),
               stopMode := true, sound := none }

/-- The steady-state target gain for the left channel computed at the top of
`mixTo`: `master_volume * volume * min(1.0f + pan, 1.0f)`. -/
def wishVolumeL (master : ℚ) (s : PlayingSound) : ℚ :=
  master * s.volume * min (1 + s.pan) 1

/-- The steady-state target gain for the right channel:
`master_volume * volume * min(1.0f - pan, 1.0f)`. -/
def wishVolumeR (master : ℚ) (s : PlayingSound) : ℚ :=
  master * s.volume * min (1 - s.pan) 1

/-- One gain-smoothing step of the general mixing path: move `v` toward
`wish` by at most `1/512`, snapping when within `1/512`. -/
def smooth (v wish : ℚ) : ℚ :=
  if v = wish then v
  else if |v - wish| ≤ oneDiv512 then wish
  else if v < wish then v + oneDiv512
  else v - oneDiv512

/-- One stop-fade step for one channel: snap to 0 when the magnitude is at
most `1/512`, otherwise `(v + trend) * 0.997f`. -/
def fadeStep (v trend : ℚ) : ℚ :=
  if |v| ≤ oneDiv512 then 0 else (v + trend) * (997 / 1000)

/-- The fast-path inner loop of `mixTo` for a mono asset: linear
interpolation at fixed gains, no bounds or smoothing checks.  Returns the
final `pos` and the buffer with the first `count` frames accumulated. -/
def fastMixMono (d : Nat → ℚ) (advance volL volR : ℚ) :
    Nat → ℚ → List Frame → ℚ × List Frame
  | 0, pos, mix => (pos, mix)
  | _ + 1, pos, [] => (pos, [])
  | n + 1, pos, f :: rest =>
    let ip := uif pos
    let t : ℚ := pos - (ip : ℚ)
    let v := lerp (d ip) (d (ip + 1)) t
    let r := fastMixMono d advance volL volR n (pos + advance) rest
    (r.1, (f.1 + v * volL, f.2 + v * volR) :: r.2)

/-- The fast-path inner loop of `mixTo` for a stereo asset. -/
def fastMixStereo (d : Nat → ℚ) (advance volL volR : ℚ) :
    Nat → ℚ → List Frame → ℚ × List Frame
  | 0, pos, mix => (pos, mix)
  | _ + 1, pos, [] => (pos, [])
  | n + 1, pos, f :: rest =>
    let ip := uif pos
    let t : ℚ := pos - (ip : ℚ)
    let vl := lerp (d (ip * 2)) (d (ip * 2 + 2)) t
    let vr := lerp (d (ip * 2 + 1)) (d (ip * 2 + 2 + 1)) t
    let r := fastMixStereo d advance volL volR n (pos + advance) rest
    (r.1, (f.1 + vl * volL, f.2 + vr * volR) :: r.2)

/-- The general per-sample loop of `mixTo` for a mono asset (deferred start,
interpolation with gain smoothing and loop/termination checks, stop-fade).
`d` is the captured `sndData` pointer. -/
def slowMixMono (d : Nat → ℚ) (advance wishL wishR inv_frequency : ℚ) :
    Nat → PlayingSound → List Frame → PlayingSound × List Frame
  | 0, s, mix => (s, mix)
  | _ + 1, s, [] => (s, [])
  | n + 1, s, f :: rest =>
    if s.waitingStart then
      let t := s.timeToStart - inv_frequency
      let s' :=
        if t ≤ 0 then { s with timeToStart := t, waitingStart := false, pos := s.startPos }
        else { s with timeToStart := t }
      let r := slowMixMono d advance wishL wishR inv_frequency n s' rest
      (r.1, f :: r.2)
    else if !s.stopMode then
      let ip := uif s.pos
      let t : ℚ := s.pos - (ip : ℚ)
      let v := lerp (d ip) (d (ip + 1)) t
      let f' : Frame := (f.1 + v * s.volumeL, f.2 + v * s.volumeR)
      let s' := { s with volumeL := smooth s.volumeL wishL,
                         volumeR := smooth s.volumeR wishR,
                         pos := s.pos + advance }
      let s'' :=
        if s'.pos ≥ s'.stopPos then
          if s'.loop then { s' with pos := s'.startPos }
          else ({ s' with pos := s'.stopPos }).setStopMode
        else s'
      let r := slowMixMono d advance wishL wishR inv_frequency n s'' rest
      (r.1, f' :: r.2)
    else
      let vL := fadeStep s.volumeL s.volumeTrendL
      let vR := fadeStep s.volumeR s.volumeTrendR
      let s' := { s with volumeL := vL, volumeR := vR,
                         stopMode := if vR = 0 ∧ vL = 0 then false else s.stopMode }
      let r := slowMixMono d advance wishL wishR inv_frequency n s' rest
      (r.1, (f.1 + vL, f.2 + vR) :: r.2)

/-- The general per-sample loop of `mixTo` for a stereo asset.  Unlike the
mono loop, it `break`s out the moment the stop-fade reaches silence, leaving
the remaining frames of the chunk untouched. -/
def slowMixStereo (d : Nat → ℚ) (advance wishL wishR inv_frequency : ℚ) :
    Nat → PlayingSound → List Frame → PlayingSound × List Frame
  | 0, s, mix => (s, mix)
  | _ + 1, s, [] => (s, [])
  | n + 1, s, f :: rest =>
    if s.waitingStart then
      let t := s.timeToStart - inv_frequency
      let s' :=
        if t ≤ 0 then { s with timeToStart := t, waitingStart := false, pos := s.startPos }
        else { s with timeToStart := t }
      let r := slowMixStereo d advance wishL wishR inv_frequency n s' rest
      (r.1, f :: r.2)
    else if !s.stopMode then
      let ip := uif s.pos
      let t : ℚ := s.pos - (ip : ℚ)
      let vl := lerp (d (ip * 2)) (d (ip * 2 + 2)) t
      let vr := lerp (d (ip * 2 + 1)) (d (ip * 2 + 2 + 1)) t
      let f' : Frame := (f.1 + vl * s.volumeL, f.2 + vr * s.volumeR)
      let s' := { s with volumeL := smooth s.volumeL wishL,
                         volumeR := smooth s.volumeR wishR,
                         pos := s.pos + advance }
      let s'' :=
        if s'.pos ≥ s'.stopPos then
          if s'.loop then { s' with pos := s'.startPos }
          else ({ s' with pos := s'.stopPos }).setStopMode
        else s'
      let r := slowMixStereo d advance wishL wishR inv_frequency n s'' rest
      (r.1, f' :: r.2)
    else
      let vL := fadeStep s.volumeL s.volumeTrendL
      let vR := fadeStep s.volumeR s.volumeTrendR
      if vR = 0 ∧ vL = 0 then
        -- stopMode = false; break;  (frame f is left untouched)
        ({ s with volumeL := vL, volumeR := vR, stopMode := false }, f :: rest)
      else
        let s' := { s with volumeL := vL, volumeR := vR }
        let r := slowMixStereo d advance wishL wishR inv_frequency n s' rest
        (r.1, (f.1 + vL, f.2 + vR) :: r.2)

/-- `PlayingSound::mixTo(mix, count, frequency, inv_frequency, buffer_time)`:
mix this voice additively into the first `count` frames of `mix`.  Returns
the updated voice and buffer.  Reads the global `master_volume`, passed
explicitly. -/
def PlayingSound.mixTo (s : PlayingSound) (master : ℚ) (mix : List Frame)
    (count : Nat) (frequency : Int) (inv_frequency buffer_time : ℚ) :
    PlayingSound × List Frame :=
  let wishL := wishVolumeL master s
  let wishR := wishVolumeR master s
  match s.sound with
  | none => (s, mix)                     -- sndData == nullptr: early return
  | some snd =>
    match snd.data with
    | none => (s, mix)                   -- sndData == nullptr: early return
    | some bufData =>
      let d : Nat → ℚ := fun i => bufData.getD i 0
      let advance : ℚ := (snd.frequency : ℚ) * inv_frequency * s.pitch
      if s.stopMode = false ∧ s.waitingStart = false ∧
          s.volumeL > 0 ∧ s.volumeR > 0 ∧
          wishL = s.volumeL ∧ wishR = s.volumeR ∧
          s.pos + advance * (count : ℚ) < s.stopPos then
        if s.channels = 1 then
          let r := fastMixMono d advance s.volumeL s.volumeR count s.pos mix
          ({ s with pos := r.1 }, r.2)
        else
          let r := fastMixStereo d advance s.volumeL s.volumeR count s.pos mix
          ({ s with pos := r.1 }, r.2)
      else if s.waitingStart ∧ s.timeToStart > buffer_time then
        ({ s with timeToStart := s.timeToStart - buffer_time }, mix)
      else if s.channels = 1 then
        slowMixMono d advance wishL wishR inv_frequency count s mix
      else
        slowMixStereo d advance wishL wishR inv_frequency count s mix

/-- The process-wide mixer state: the 128-slot voice table, `master_volume`
and the transport counters. -/
structure SoundState where
  voices : List PlayingSound
  master_volume : ℚ
  total_samples_played : Int
  total_time_played : ℚ
deriving DecidableEq

/-- State after `initialize()` / process start: all slots zeroed,
`master_volume = 1`, counters zero. -/
def freshState : SoundState :=
  ⟨List.replicate 128 PlayingSound.init, 1, 0, 0⟩

/-- The scan of `allocate_playing_sound`: first `i` in `[i0, i0 + fuel)` with
an empty slot, else `-1`.  Called with `i0 = 1`, `fuel = 127`, covering
slots `1 .. 127` (slot 0 is reserved). -/
def allocScan (voices : List PlayingSound) : Nat → Nat → Int
  | _, 0 => -1
  | i, fuel + 1 =>
    if (voices.getD i default).isEmpty then (i : Int) else allocScan voices (i + 1) fuel

/-- Index chosen by `allocate_playing_sound`, `-1` when the pool is full. -/
def allocIdx (voices : List PlayingSound) : Int := allocScan voices 1 127

/-- `allocate_playing_sound()`: find the first empty slot, advance its
version by `MAX_PLAYING_SOUNDS = 128`, return its index (or `-1`). -/
def allocate_playing_sound (voices : List PlayingSound) : Int × List PlayingSound :=
  let idx := allocIdx voices
  if idx < 0 then (-1, voices)
  else
    let v := voices.getD idx.toNat default
    (idx, voices.set idx.toNat { v with version := v.version + 128 })

/-- `struct PlayingSoundHandle`, a packed `uint32_t`.  The struct itself is
declared in `sound.h` (not under `src/`); per the spec a zero handle is
always invalid and the default-constructed handle is `0`. -/
structure PlayingSoundHandle where
  handle : Nat
deriving DecidableEq

/-- The default handle `PlayingSoundHandle()` returned on play failure. -/
def PlayingSoundHandle.invalid : PlayingSoundHandle := ⟨0⟩

/-- `handle & PLAYING_SOUNDS_MASK`: the slot index bits. -/
def handleIdx (h : Nat) : Nat := h &&& 127

/-- `handle & ~PLAYING_SOUNDS_MASK` on the 32-bit handle: the version bits,
i.e. the handle with its low 7 bits cleared. -/
def handleVer (h : Nat) : Nat := h - (h &&& 127)

/-- `is_handle_valid(ps)`: version bits match the slot's version and the
index is nonzero. -/
def is_handle_valid (voices : List PlayingSound) (ps : PlayingSoundHandle) : Bool :=
  let idx := handleIdx ps.handle
  ((voices.getD idx default).version == handleVer ps.handle) && decide (0 < idx)

/-- `handle_to_index(ps)`: the slot index, or `-1` for a stale handle. -/
def handle_to_index (voices : List PlayingSound) (ps : PlayingSoundHandle) : Int :=
  if is_handle_valid voices ps then (handleIdx ps.handle : Int) else -1

/-- The slot contents written by a successful `play_sound_internal` into the
freshly allocated voice `prev` (whose `version` was already advanced by the
allocator): the argument clamping, time→frame conversion and gain seeding of
lines 825–851 of the source.  Fields not assigned there (the fade trends and
`version`) keep the slot's previous values. -/
def playedVoice (master : ℚ) (sound : PcmSound)
    (volume pitch pan start_time end_time : ℚ) (loop : Bool)
    (defer_time_sec : ℚ) (prev : PlayingSound) : PlayingSound :=
  let pitch := clampQ pitch (1 / 100000) 1000
  let pan := clampQ pan (-1) 1
  let volume := clampQ volume 0 100000
  let start := clampQ ((ratTrunc (start_time * (sound.frequency : ℚ)) : Int) : ℚ)
      0 ((sound.samples - 1 : Int) : ℚ)
  let stop := clampQ ((ratTrunc (end_time * (sound.frequency : ℚ)) : Int) : ℚ)
      start ((sound.samples - 1 : Int) : ℚ)
  let pos := if defer_time_sec < 0 then
      min ((ratTrunc (-defer_time_sec * (sound.frequency : ℚ)) : Int) : ℚ) stop
    else start
  let timeToStart := max defer_time_sec 0
  { prev with
      channels := sound.channels
      sound := some sound
      volume := volume
      pitch := pitch
      pan := pan
      volumeL := master * volume * min (1 + pan) 1
      volumeR := master * volume * min (1 - pan) 1
      pos := pos
      startPos := start
      stopPos := stop
      loop := loop
      stopMode := false
      timeToStart := timeToStart
      waitingStart := timeToStart ≠ 0 }

/-- `play_sound_internal(sound, volume, pitch, pan, start_time, end_time,
loop, defer_time_sec)`.  Returns the new state and the handle.  Note that
the version bump done by the allocator persists even when the call then
fails because `sound.samples <= 2`, exactly as in the source. -/
def play_sound_internal (st : SoundState) (sound : PcmSound)
    (volume pitch pan start_time end_time : ℚ) (loop : Bool)
    (defer_time_sec : ℚ) : SoundState × PlayingSoundHandle :=
  let a := allocate_playing_sound st.voices
  let idx := a.1
  let st := { st with voices := a.2 }
  if idx < 0 ∨ sound.samples ≤ 2 then (st, PlayingSoundHandle.invalid)
  else
    let s := playedVoice st.master_volume sound volume pitch pan start_time
        end_time loop defer_time_sec (st.voices.getD idx.toNat default)
    ({ st with voices := st.voices.set idx.toNat s },
     ⟨idx.toNat ||| s.version⟩)

/-- `set_sound_pitch(handle, pitch)`: silent no-op on a stale handle. -/
def set_sound_pitch (st : SoundState) (h : PlayingSoundHandle) (pitch : ℚ) : SoundState :=
  let idx := handle_to_index st.voices h
  if idx < 0 then st
  else
    let v := st.voices.getD idx.toNat default
    { st with voices := st.voices.set idx.toNat { v with pitch := pitch } }

/-- `set_sound_volume(handle, volume)`. -/
def set_sound_volume (st : SoundState) (h : PlayingSoundHandle) (volume : ℚ) : SoundState :=
  let idx := handle_to_index st.voices h
  if idx < 0 then st
  else
    let v := st.voices.getD idx.toNat default
    { st with voices := st.voices.set idx.toNat { v with volume := volume } }

/-- `set_sound_pan(handle, pan)`. -/
def set_sound_pan (st : SoundState) (h : PlayingSoundHandle) (pan : ℚ) : SoundState :=
  let idx := handle_to_index st.voices h
  if idx < 0 then st
  else
    let v := st.voices.getD idx.toNat default
    { st with voices := st.voices.set idx.toNat { v with pan := pan } }

/-- `is_playing(handle)`: the handle resolves and the voice is not in
stop-fade. -/
def is_playing (st : SoundState) (h : PlayingSoundHandle) : Bool :=
  let idx := handle_to_index st.voices h
  if idx < 0 ∨ (st.voices.getD idx.toNat default).stopMode then false else true

/-- `get_sound_play_pos(handle)` in seconds; `0` when the handle is stale or
the voice is stopping, empty, or deferred. -/
def get_sound_play_pos (st : SoundState) (h : PlayingSoundHandle) : ℚ :=
  let idx := handle_to_index st.voices h
  if idx < 0 then 0
  else
    let v := st.voices.getD idx.toNat default
    if v.sound.isNone ∨ v.stopMode ∨ v.waitingStart then 0
    else v.pos / ((v.sound.getD default).frequency : ℚ)

/-- `set_sound_play_pos(handle, pos_seconds)`: floor to a frame position and
clamp to `[startPos, stopPos]`; refused for stale handles, empty voices and
voices in stop-fade. -/
def set_sound_play_pos (st : SoundState) (h : PlayingSoundHandle) (pos_seconds : ℚ) : SoundState :=
  let idx := handle_to_index st.voices h
  if idx < 0 then st
  else
    let v := st.voices.getD idx.toNat default
    if v.sound.isNone ∨ v.stopMode then st
    else
      let p : ℚ := (Int.floor (((v.sound.getD default).frequency : ℚ) * pos_seconds) : Int)
      { st with voices := st.voices.set idx.toNat { v with pos := clampQ p v.startPos v.stopPos } }

/-- `stop_sound(handle)`. -/
def stop_sound (st : SoundState) (h : PlayingSoundHandle) : SoundState :=
  let idx := handle_to_index st.voices h
  if idx < 0 then st
  else
    let v := st.voices.getD idx.toNat default
    if v.sound.isNone ∨ v.stopMode then st
    else { st with voices := st.voices.set idx.toNat v.setStopMode }

/-- `stop_all_sounds()`: put every non-empty voice into stop-fade. -/
def stop_all_sounds (st : SoundState) : SoundState :=
  { st with voices := st.voices.map fun s => if s.isEmpty then s else s.setStopMode }

/-- One chunk of `fill_buffer_cb`: iterate the whole voice table in order and
let every non-empty voice mix itself into the first `count` frames. -/
def mixChunk (master : ℚ) (voices : List PlayingSound) (buf : List Frame)
    (count : Nat) (frequency : Int) (inv_frequency buffer_time : ℚ) :
    List PlayingSound × List Frame :=
  match voices with
  | [] => ([], buf)
  | v :: vs =>
    let r := if v.isEmpty then (v, buf)
             else v.mixTo master buf count frequency inv_frequency buffer_time
    let rs := mixChunk master vs r.2 count frequency inv_frequency buffer_time
    (r.1 :: rs.1, rs.2)

/-- The `while (samples > 0)` loop of `fill_buffer_cb`.  `samples` stays the
signed C++ `int`; the structural `fuel` only bounds the number of
iterations and is instantiated large enough that the guard `samples <= 0`
always ends the loop first.  Each iteration mixes one chunk of
`min(samples, 256)` frames, then decrements `samples` by `step = 256`,
advances the buffer pointer by 256 frames and — after the decrement, as in
the source — adds `min(samples, step)` to both transport counters. -/
def fillLoop (master : ℚ) (frequency : Int) (inv_frequency : ℚ) :
    Nat → List PlayingSound → List Frame → Int → Int → ℚ →
    List PlayingSound × List Frame × Int × ℚ
  | 0, voices, buf, _, tsp, ttp => (voices, buf, tsp, ttp)
  | fuel + 1, voices, buf, samples, tsp, ttp =>
    if samples ≤ 0 then (voices, buf, tsp, ttp)
    else
      let count := min samples 256
      let c := mixChunk master voices buf count.toNat frequency inv_frequency
          ((count : ℚ) * inv_frequency)
      let samples' := samples - 256
      let tsp' := tsp + min samples' 256
      let ttp' := ttp + ((min samples' 256 : Int) : ℚ) * inv_frequency
      let r := fillLoop master frequency inv_frequency fuel c.1 (c.2.drop 256) samples' tsp' ttp'
      (r.1, c.2.take 256 ++ r.2.1, r.2.2.1, r.2.2.2)

/-- `fill_buffer_cb(out_buf, frequency, channels, samples)`: zero the output
buffer (`memset`), then run the chunk loop.  Returns the updated state and
the produced interleaved stereo buffer. -/
def fill_buffer_cb (st : SoundState) (frequency : Int) (samples : Int) :
    SoundState × List Frame :=
  let buf : List Frame := List.replicate samples.toNat (0, 0)
  let inv : ℚ := 1 / (frequency : ℚ)
  let r := fillLoop st.master_volume frequency inv samples.toNat st.voices buf
      samples st.total_samples_played st.total_time_played
  ({ st with voices := r.1, total_samples_played := r.2.2.1,
             total_time_played := r.2.2.2 }, r.2.1)


end sound

/-! ### General helper lemmas -/

theorem getD_set_self {α : Type} (l : List α) (i : Nat) (a d : α)
    (h : i < l.length) : (l.set i a).getD i d = a := by
  rw [List.getD_eq_getElem _ _ (by simpa using h)]
  exact List.getElem_set_self (by simpa using h)

theorem getD_set_ne {α : Type} (l : List α) (i j : Nat) (a d : α)
    (h : i ≠ j) : (l.set i a).getD j d = l.getD j d := by
  rcases Nat.lt_or_ge j l.length with hj | hj
  · rw [List.getD_eq_getElem _ _ (by simpa using hj), List.getD_eq_getElem _ _ hj]
    exact List.getElem_set_ne h (by simpa using hj)
  · rw [List.getD_eq_default _ _ (by simpa using hj), List.getD_eq_default _ _ hj]

theorem getD_replicate {α : Type} (a d : α) :
    ∀ (n j : Nat), (List.replicate n a).getD j d = if j < n then a else d := by
  intro n
  induction n with
  | zero => intro j; simp
  | succ m ih =>
    intro j
    cases j with
    | zero => simp [List.replicate_succ]
    | succ j => simpa [List.replicate_succ, Nat.succ_lt_succ_iff] using ih j

theorem getD_drop {α : Type} (d : α) :
    ∀ (n : Nat) (l : List α) (j : Nat), (l.drop n).getD j d = l.getD (n + j) d := by
  intro n
  induction n with
  | zero => intro l j; simp
  | succ m ih =>
    intro l j
    cases l with
    | nil => simp
    | cons x xs => simpa [Nat.succ_add] using ih xs j

theorem getD_take {α : Type} (d : α) :
    ∀ (n : Nat) (l : List α) (j : Nat), j < n → (l.take n).getD j d = l.getD j d := by
  intro n
  induction n with
  | zero => intro l j hj; omega
  | succ m ih =>
    intro l j hj
    cases l with
    | nil => simp
    | cons x xs =>
      cases j with
      | zero => simp
      | succ j => simpa using ih xs j (by omega)

namespace sound

/-- Bit-packing of handles: or-ing a slot index below 128 with a version
that is a multiple of 128 is plain addition. -/
theorem lor_eq_add_of_lt (i w : Nat) (hi : i < 128) (hw : w % 128 = 0) :
    i ||| w = i + w := by
  obtain ⟨k, hk⟩ : 128 ∣ w := Nat.dvd_of_mod_eq_zero hw
  subst hk
  apply Nat.eq_of_testBit_eq
  intro j
  have h128 : (128 : Nat) = 2 ^ 7 := by norm_num
  have hi' : i < 2 ^ 7 := by rw [← h128]; exact hi
  rw [Nat.testBit_or]
  have e1 : i + 128 * k = 2 ^ 7 * k + i := by rw [h128]; ring
  have e2 : 128 * k = 2 ^ 7 * k + 0 := by rw [h128]; ring
  rw [e1, Nat.testBit_mul_pow_two_add k hi' j, e2,
    Nat.testBit_mul_pow_two_add k (Nat.two_pow_pos 7) j]
  by_cases hj : j < 7
  · simp [hj]
  · have : i < 2 ^ j :=
      lt_of_lt_of_le hi' (Nat.pow_le_pow_right (by norm_num) (by omega))
    simp [hj, Nat.testBit_lt_two_pow this]

theorem and127_eq_mod (h : Nat) : h &&& 127 = h % 128 := by
  have e : (127 : Nat) = 2 ^ 7 - 1 := by norm_num
  rw [e, Nat.and_pow_two_sub_one_eq_mod]

theorem handleIdx_lt (h : Nat) : handleIdx h < 128 := by
  rw [handleIdx, and127_eq_mod]
  exact Nat.mod_lt _ (by norm_num)

/-- Scanning result bounds: a non-negative allocation index lies in
`[i, i + fuel)` and points at an empty slot. -/
theorem allocScan_spec (voices : List PlayingSound) :
    ∀ (fuel i : Nat) (k : Int), allocScan voices i fuel = k → 0 ≤ k →
      i ≤ k.toNat ∧ k.toNat < i + fuel ∧
      (voices.getD k.toNat default).isEmpty = true := by
  intro fuel
  induction fuel with
  | zero => intro i k hk h0; rw [allocScan] at hk; omega
  | succ m ih =>
    intro i k hk h0
    rw [allocScan] at hk
    by_cases he : (voices.getD i default).isEmpty
    · rw [if_pos he] at hk
      have hk' : k.toNat = i := by omega
      refine ⟨by omega, by omega, ?_⟩
      rw [hk']; exact he
    · rw [if_neg he] at hk
      obtain ⟨h1, h2, h3⟩ := ih (i + 1) k hk h0
      exact ⟨by omega, by omega, h3⟩

/-- The scan fails exactly when every slot in `[i, i + fuel)` is non-empty. -/
theorem allocScan_neg_iff (voices : List PlayingSound) :
    ∀ (fuel i : Nat), allocScan voices i fuel = -1 ↔
      ∀ j, i ≤ j → j < i + fuel → (voices.getD j default).isEmpty = false := by
  intro fuel
  induction fuel with
  | zero =>
    intro i
    rw [allocScan]
    simp only [true_iff]
    exact fun j h1 h2 => by omega
  | succ m ih =>
    intro i
    rw [allocScan]
    by_cases he : (voices.getD i default).isEmpty
    · rw [if_pos he]
      constructor
      · intro h; omega
      · intro h
        have := h i (le_refl i) (by omega)
        rw [he] at this; cases this
    · rw [if_neg he]
      rw [ih (i + 1)]
      constructor
      · intro h j h1 h2
        rcases Nat.eq_or_lt_of_le h1 with rfl | h1'
        · simpa using he
        · exact h j h1' (by omega)
      · intro h j h1 h2
        exact h j (by omega) (by omega)

/-- Shape of a successful allocation. -/
theorem allocate_eq_of_nonneg (voices : List PlayingSound)
    (h0 : 0 ≤ allocIdx voices) :
    allocate_playing_sound voices =
      (allocIdx voices, voices.set (allocIdx voices).toNat
        { (voices.getD (allocIdx voices).toNat default) with
            version := (voices.getD (allocIdx voices).toNat default).version + 128 }) := by
  rw [allocate_playing_sound, if_neg (by omega)]

/-- Shape of a successful `play_sound_internal` call: the allocated slot is
overwritten with `playedVoice` applied to the version-bumped previous slot
contents, and the returned handle packs the slot index with the new
version. -/
theorem play_success_eq (st : SoundState) (snd : PcmSound)
    (volume pitch pan start_time end_time : ℚ) (loop : Bool) (defer : ℚ)
    (hlen : st.voices.length = 128)
    (h0 : 0 ≤ allocIdx st.voices) (h3 : 2 < snd.samples) :
    play_sound_internal st snd volume pitch pan start_time end_time loop defer =
      ({ st with voices := st.voices.set (allocIdx st.voices).toNat (playedVoice st.master_volume snd volume pitch pan start_time end_time loop defer { (st.voices.getD (allocIdx st.voices).toNat default) with version := (st.voices.getD (allocIdx st.voices).toNat default).version + 128 }) },
       ⟨(allocIdx st.voices).toNat |||
          ((st.voices.getD (allocIdx st.voices).toNat default).version + 128)⟩) := by
  have hi : (allocIdx st.voices).toNat < 128 :=
    (allocScan_spec st.voices 127 1 _ rfl h0).2.1
  have hil : (allocIdx st.voices).toNat < st.voices.length := by rw [hlen]; exact hi
  rw [play_sound_internal, allocate_eq_of_nonneg st.voices h0]
  simp only
  rw [if_neg (by simp only [not_or]; exact ⟨by omega, by omega⟩)]
  rw [getD_set_self st.voices _ _ default hil, List.set_set]
  have hver : (playedVoice st.master_volume snd volume pitch pan start_time end_time
      loop defer
      { (st.voices.getD (allocIdx st.voices).toNat default) with
          version := (st.voices.getD (allocIdx st.voices).toNat default).version + 128 }).version =
      (st.voices.getD (allocIdx st.voices).toNat default).version + 128 := rfl
  rw [hver]

end sound

namespace sound

/-- Gain smoothing is inactive when the current gain already equals the
target. -/
theorem smooth_self (x : ℚ) : smooth x x = x := by
  rw [smooth, if_pos rfl]

/-- A voice as `stop_sound` leaves it: in stop-fade with non-zero gains and
a null asset reference. -/
def fadingVoiceEx : PlayingSound :=
  { PlayingSound.init with
      stopMode := true
      version := 256
      volumeL := 1 / 2
      volumeR := 1 / 2
      volumeTrendL := -(1 / 10000)
      volumeTrendR := -(1 / 10000) }

/-- A playing voice occupying a slot (used to build a full pool). -/
def busyVoiceEx : PlayingSound :=
  { PlayingSound.init with
      sound := some ⟨48000, 4, 1, some [1, 0, 0, 0]⟩
      channels := 1
      version := 128
      volume := 1
      pitch := 1
      volumeL := 1
      volumeR := 1
      stopPos := 3 }

/-- A voice that is both waiting and (vacuously) in stop-fade, for the C10
witness. -/
def stopFadeIdemEx : PlayingSound :=
  { PlayingSound.init with
      stopMode := true
      waitingStart := true
      volumeL := 3 / 4
      volumeR := 3 / 4
      version := 384 }

end sound

/-! ### Claim theorems -/

open sound

/-- **C10.** `setStopMode` is idempotent on a voice already in stop-fade (or
whose asset reference is already null): it only clears `waitingStart`; the
version is not advanced again, the gains and fade trends are not re-seeded,
and `stopMode` is unchanged (in particular it stays set when it was set). -/
theorem C10_setStopMode_idempotent (s : PlayingSound)
    (h : s.sound = none ∨ s.stopMode = true) :
    s.setStopMode = { s with waitingStart := false } ∧
    s.setStopMode.version = s.version ∧
    s.setStopMode.volumeL = s.volumeL ∧
    s.setStopMode.volumeR = s.volumeR ∧
    s.setStopMode.volumeTrendL = s.volumeTrendL ∧
    s.setStopMode.volumeTrendR = s.volumeTrendR ∧
    s.setStopMode.stopMode = s.stopMode := by
  have he : s.setStopMode = { s with waitingStart := false } := by
    rcases h with h | h
    · rw [PlayingSound.setStopMode, if_pos (by rw [h]; rfl)]
    · rw [PlayingSound.setStopMode]
      by_cases hs : s.sound.isNone
      · rw [if_pos hs]
      · rw [if_neg hs, if_pos h]
  refine ⟨he, ?_, ?_, ?_, ?_, ?_, ?_⟩ <;> rw [he]

theorem C10_witness :
    stopFadeIdemEx.setStopMode = { stopFadeIdemEx with waitingStart := false } :=
  (C10_setStopMode_idempotent stopFadeIdemEx (Or.inr rfl)).1

set_option maxRecDepth 40000 in
/-- **C2.** The claim fails on the code: once a voice is in stop-fade its
asset reference is null, and `mixTo` early-returns on the null data pointer
(`if (!sndData) return;`).  At the concrete fading voice below the mix
routine leaves the gains (1/2), the whole voice and the output buffer
unchanged, so repeated mixing never drives the gains to 0; the voice never
leaves stop-fade (`isEmpty = false` persists), and a full pool containing it
still fails to allocate (`allocIdx = -1`), so a subsequent `play` cannot
succeed. -/
theorem C2_stop_fade_never_completes :
    fadingVoiceEx.mixTo 1 (List.replicate 4 ((0 : ℚ), (0 : ℚ))) 4 48000
        (1 / 48000) (4 / 48000) =
      (fadingVoiceEx, List.replicate 4 ((0 : ℚ), (0 : ℚ))) ∧
    fadingVoiceEx.isEmpty = false ∧
    fadingVoiceEx.volumeL = 1 / 2 ∧
    fadingVoiceEx.volumeR = 1 / 2 ∧
    allocIdx ((List.replicate 128 busyVoiceEx).set 5 fadingVoiceEx) = -1 := by
  refine ⟨rfl, rfl, rfl, rfl, by decide⟩

/-- **C6.** Pan law and gain seeding: the steady-state targets computed at
the top of `mixTo` are `master * volume * min(1 ± pan, 1)` (`wishVolumeL`
and `wishVolumeR`, exactly as used by the mixer), and a successful `play`
seeds the voice's `volumeL`/`volumeR` to exactly those targets for its
stored (clamped) `volume` and `pan` and the current master volume, so the
gain-smoothing step leaves the gains unchanged on the first callback — no
ramp-in occurs. -/
theorem C6_pan_law_and_seeding (st : SoundState) (snd : PcmSound)
    (volume pitch pan start_time end_time : ℚ) (loop : Bool) (defer : ℚ)
    (hlen : st.voices.length = 128)
    (hsucc : ¬(allocIdx st.voices < 0 ∨ snd.samples ≤ 2)) :
    let r := play_sound_internal st snd volume pitch pan start_time end_time loop defer
    let v := r.1.voices.getD (allocIdx st.voices).toNat default
    v.volumeL = wishVolumeL st.master_volume v ∧
    v.volumeR = wishVolumeR st.master_volume v ∧
    wishVolumeL st.master_volume v = st.master_volume * v.volume * min (1 + v.pan) 1 ∧
    wishVolumeR st.master_volume v = st.master_volume * v.volume * min (1 - v.pan) 1 ∧
    smooth v.volumeL (wishVolumeL st.master_volume v) = v.volumeL ∧
    smooth v.volumeR (wishVolumeR st.master_volume v) = v.volumeR := by
  intro r v
  push_neg at hsucc
  obtain ⟨h0, h3⟩ := hsucc
  have hi : (allocIdx st.voices).toNat < 128 :=
    (allocScan_spec st.voices 127 1 _ rfl h0).2.1
  have he := play_success_eq st snd volume pitch pan start_time end_time loop defer
    hlen h0 h3
  have hv : v = playedVoice st.master_volume snd volume pitch pan start_time
      end_time loop defer { (st.voices.getD (allocIdx st.voices).toNat default) with version := (st.voices.getD (allocIdx st.voices).toNat default).version + 128 } := by
    show (play_sound_internal st snd volume pitch pan start_time end_time loop
        defer).1.voices.getD (allocIdx st.voices).toNat default = _
    rw [he]
    exact getD_set_self _ _ _ _ (by simp [hlen]; exact hi)
  have h1 : v.volumeL = wishVolumeL st.master_volume v := by
    rw [hv]; simp [playedVoice, wishVolumeL]
  have h2 : v.volumeR = wishVolumeR st.master_volume v := by
    rw [hv]; simp [playedVoice, wishVolumeR]
  refine ⟨h1, h2, rfl, rfl, ?_, ?_⟩
  · rw [h1, smooth_self]
  · rw [h2, smooth_self]

theorem C6_witness :
    let st0 : SoundState := freshState
    let asset : PcmSound := ⟨48000, 4, 1, some [1, 0, 0, 0]⟩
    let r := play_sound_internal st0 asset (1/2) 1 (1/4) 0 100 false 0
    let v := r.1.voices.getD (allocIdx st0.voices).toNat default
    v.volumeL = wishVolumeL st0.master_volume v ∧
    v.volumeR = wishVolumeR st0.master_volume v := by
  have h := C6_pan_law_and_seeding freshState ⟨48000, 4, 1, some [1, 0, 0, 0]⟩
    (1/2) 1 (1/4) 0 100 false 0 (by simp [freshState]) (by decide)
  exact ⟨h.1, h.2.1⟩

namespace sound

/-- Stopping a live voice advances its version by exactly 128 and nulls its
asset reference. -/
theorem setStopMode_fields (v : PlayingSound) (a : PcmSound)
    (ha : v.sound = some a) (hm : v.stopMode = false) :
    v.setStopMode.version = v.version + 128 ∧ v.setStopMode.sound = none := by
  rw [PlayingSound.setStopMode, if_neg (by simp [ha]), if_neg (by simp [hm])]
  by_cases hw : v.waitingStart <;> by_cases hc : v.channels = 1 <;>
    simp [hw, hc]

/-- Every control operation taking a handle is a no-op (and `is_playing`
false, `get_sound_play_pos` zero) when the handle does not validate. -/
theorem ops_noop_of_invalid (st : SoundState) (h : PlayingSoundHandle) (p q : ℚ)
    (hinv : is_handle_valid st.voices h = false) :
    handle_to_index st.voices h = -1 ∧
    set_sound_pitch st h p = st ∧
    set_sound_volume st h p = st ∧
    set_sound_pan st h p = st ∧
    set_sound_play_pos st h q = st ∧
    stop_sound st h = st ∧
    get_sound_play_pos st h = 0 ∧
    is_playing st h = false := by
  have hti : handle_to_index st.voices h = -1 := by
    rw [handle_to_index, if_neg (by simp [hinv])]
  refine ⟨hti, ?_, ?_, ?_, ?_, ?_, ?_, ?_⟩
  · rw [set_sound_pitch]; simp [hti]
  · rw [set_sound_volume]; simp [hti]
  · rw [set_sound_pan]; simp [hti]
  · rw [set_sound_play_pos]; simp [hti]
  · rw [stop_sound]; simp [hti]
  · rw [get_sound_play_pos]; simp [hti]
  · rw [is_playing]; simp [hti]

end sound

/-- **C1.** Stale-handle safety: stopping a voice through a valid handle to
a live (asset attached, not already stopping) voice advances that voice's
version by exactly 128, after which the handle no longer validates; every
control operation using the handle then leaves the state unchanged,
`get_sound_play_pos` returns 0 and `is_playing` returns `false`. -/
theorem C1_stale_handle_safety (st : SoundState) (h : PlayingSoundHandle) (p q : ℚ)
    (hlen : st.voices.length = 128)
    (hval : is_handle_valid st.voices h = true)
    (hsound : (st.voices.getD (handleIdx h.handle) default).sound.isSome = true)
    (hstop : (st.voices.getD (handleIdx h.handle) default).stopMode = false) :
    let st' := stop_sound st h
    ((st'.voices.getD (handleIdx h.handle) default).version =
        (st.voices.getD (handleIdx h.handle) default).version + 128) ∧
    is_handle_valid st'.voices h = false ∧
    set_sound_pitch st' h p = st' ∧
    set_sound_volume st' h p = st' ∧
    set_sound_pan st' h p = st' ∧
    set_sound_play_pos st' h q = st' ∧
    stop_sound st' h = st' ∧
    get_sound_play_pos st' h = 0 ∧
    is_playing st' h = false := by
  intro st'
  have hi : handleIdx h.handle < 128 := handleIdx_lt _
  have hil : handleIdx h.handle < st.voices.length := by rw [hlen]; exact hi
  obtain ⟨a, ha⟩ := Option.isSome_iff_exists.mp hsound
  have hti : handle_to_index st.voices h = (handleIdx h.handle : Int) := by
    rw [handle_to_index, if_pos (by simp [hval])]
  have hguard : ¬((st.voices.getD (handleIdx h.handle) default).sound.isNone = true ∨
      (st.voices.getD (handleIdx h.handle) default).stopMode = true) := by
    rw [ha, hstop]; simp
  have hst' : st' = { st with voices := st.voices.set (handleIdx h.handle) ((st.voices.getD (handleIdx h.handle) default).setStopMode) } := by
    show stop_sound st h = _
    rw [stop_sound]
    simp only [hti, Int.toNat_natCast]
    rw [if_neg (by omega), if_neg hguard]
  have hfields := setStopMode_fields (st.voices.getD (handleIdx h.handle) default)
    a ha hstop
  have hgd : st'.voices.getD (handleIdx h.handle) default =
      (st.voices.getD (handleIdx h.handle) default).setStopMode := by
    rw [hst']
    exact getD_set_self _ _ _ _ hil
  have hver : (st'.voices.getD (handleIdx h.handle) default).version =
      (st.voices.getD (handleIdx h.handle) default).version + 128 := by
    rw [hgd]; exact hfields.1
  -- the packed version bits of the handle equal the old slot version
  have hvv : (st.voices.getD (handleIdx h.handle) default).version =
      handleVer h.handle := by
    rw [is_handle_valid, Bool.and_eq_true] at hval
    exact beq_iff_eq.mp hval.1
  have hinv : is_handle_valid st'.voices h = false := by
    have hne : ((st'.voices.getD (handleIdx h.handle) default).version ==
        handleVer h.handle) = false := by
      rw [hgd, hfields.1, beq_eq_false_iff_ne]
      omega
    rw [is_handle_valid]
    show (((st'.voices.getD (handleIdx h.handle) default).version ==
        handleVer h.handle) && decide (0 < handleIdx h.handle)) = false
    rw [hne, Bool.false_and]
  have hops := ops_noop_of_invalid st' h p q hinv
  exact ⟨hver, hinv, hops.2.1, hops.2.2.1, hops.2.2.2.1, hops.2.2.2.2.1,
    hops.2.2.2.2.2.1, hops.2.2.2.2.2.2.1, hops.2.2.2.2.2.2.2⟩

set_option maxRecDepth 40000 in
theorem C1_witness :
    let st0 : SoundState := { freshState with voices := freshState.voices.set 1 busyVoiceEx }
    let h : PlayingSoundHandle := ⟨129⟩
    let st' := stop_sound st0 h
    ((st'.voices.getD (handleIdx h.handle) default).version =
        (st0.voices.getD (handleIdx h.handle) default).version + 128) ∧
    is_handle_valid st'.voices h = false ∧
    set_sound_pitch st' h 2 = st' ∧
    set_sound_volume st' h 2 = st' ∧
    set_sound_pan st' h 2 = st' ∧
    set_sound_play_pos st' h 3 = st' ∧
    stop_sound st' h = st' ∧
    get_sound_play_pos st' h = 0 ∧
    is_playing st' h = false :=
  C1_stale_handle_safety
    { freshState with voices := freshState.voices.set 1 busyVoiceEx } ⟨129⟩ 2 3
    (by decide) (by decide) (by decide) (by decide)

namespace sound

theorem clampQ_mem (t lo hi : ℚ) (h : lo ≤ hi) :
    lo ≤ clampQ t lo hi ∧ clampQ t lo hi ≤ hi := by
  rw [clampQ]
  split_ifs with h1 h2 <;> constructor <;> linarith

theorem clampQ_of_le_lo (t lo hi : ℚ) (ht : t ≤ lo) (h : lo ≤ hi) :
    clampQ t lo hi = lo := by
  rw [clampQ]
  split_ifs with h1 h2 <;> linarith

/-- For a nonnegative value `q`, the C++ float→int cast truncates like
`floor`. -/
theorem ratTrunc_of_nonneg (q : ℚ) (h : 0 ≤ q) : ratTrunc q = Int.floor q := by
  rw [ratTrunc, if_neg (not_lt.mpr h)]

/-- Truncation toward zero and `floor` coincide after clamping to a
nonnegative interval: `clamp(trunc(q), lo, hi) = clamp(floor(q), lo, hi)`
whenever `0 ≤ lo ≤ hi`. -/
theorem clampQ_trunc_eq_clampQ_floor (q lo hi : ℚ) (hlo : 0 ≤ lo) (h : lo ≤ hi) :
    clampQ ((ratTrunc q : Int) : ℚ) lo hi = clampQ ((Int.floor q : Int) : ℚ) lo hi := by
  rcases le_or_lt 0 q with hq | hq
  · rw [ratTrunc_of_nonneg q hq]
  · have h1 : ((ratTrunc q : Int) : ℚ) ≤ lo := by
      rw [ratTrunc, if_pos hq]
      have : (0 : Int) ≤ Int.floor (-q) := Int.floor_nonneg.mpr (by linarith)
      have : ((-(Int.floor (-q)) : Int) : ℚ) ≤ 0 := by
        push_cast
        simp only [neg_nonpos]
        exact_mod_cast this
      linarith
    have h2 : ((Int.floor q : Int) : ℚ) ≤ lo := by
      have : Int.floor q ≤ Int.floor (0 : ℚ) := Int.floor_le_floor (le_of_lt hq)
      rw [Int.floor_zero] at this
      have : ((Int.floor q : Int) : ℚ) ≤ 0 := by exact_mod_cast this
      linarith
    rw [clampQ_of_le_lo _ _ _ h1 h, clampQ_of_le_lo _ _ _ h2 h]

end sound

/-- **C8.** Input clamping of `play`: a successful play stores `pitch`
clamped to `[1e-5, 1000]`, `pan` clamped to `[-1, 1]`, `volume` clamped to
`[0, 1e5]`, and converts `start_time`/`end_time` to frame positions via
`floor(t * frequency)` clamped to `[0, samples-1]`, with the resulting
`stopPos ≥ startPos`. -/
theorem C8_input_clamping (st : SoundState) (snd : PcmSound)
    (volume pitch pan start_time end_time : ℚ) (loop : Bool) (defer : ℚ)
    (hlen : st.voices.length = 128)
    (hsucc : ¬(allocIdx st.voices < 0 ∨ snd.samples ≤ 2)) :
    let r := play_sound_internal st snd volume pitch pan start_time end_time loop defer
    let v := r.1.voices.getD (allocIdx st.voices).toNat default
    (v.pitch = clampQ pitch (1 / 100000) 1000 ∧
      1 / 100000 ≤ v.pitch ∧ v.pitch ≤ 1000) ∧
    (v.pan = clampQ pan (-1) 1 ∧ -1 ≤ v.pan ∧ v.pan ≤ 1) ∧
    (v.volume = clampQ volume 0 100000 ∧ 0 ≤ v.volume ∧ v.volume ≤ 100000) ∧
    v.startPos = clampQ ((Int.floor (start_time * (snd.frequency : ℚ)) : Int) : ℚ) 0 ((snd.samples - 1 : Int) : ℚ) ∧
    v.stopPos = clampQ ((Int.floor (end_time * (snd.frequency : ℚ)) : Int) : ℚ) v.startPos ((snd.samples - 1 : Int) : ℚ) ∧
    0 ≤ v.startPos ∧ v.startPos ≤ v.stopPos ∧
    v.stopPos ≤ ((snd.samples - 1 : Int) : ℚ) := by
  intro r v
  push_neg at hsucc
  obtain ⟨h0, h3⟩ := hsucc
  have hi : (allocIdx st.voices).toNat < 128 :=
    (allocScan_spec st.voices 127 1 _ rfl h0).2.1
  have he := play_success_eq st snd volume pitch pan start_time end_time loop defer
    hlen h0 h3
  have hv : v = playedVoice st.master_volume snd volume pitch pan start_time
      end_time loop defer { (st.voices.getD (allocIdx st.voices).toNat default) with version := (st.voices.getD (allocIdx st.voices).toNat default).version + 128 } := by
    show (play_sound_internal st snd volume pitch pan start_time end_time loop
        defer).1.voices.getD (allocIdx st.voices).toNat default = _
    rw [he]
    exact getD_set_self _ _ _ _ (by simp [hlen]; exact hi)
  have hhi : (0 : ℚ) ≤ ((snd.samples - 1 : Int) : ℚ) := by
    have h1 : (0 : Int) ≤ snd.samples - 1 := by omega
    exact_mod_cast h1
  have hstart : v.startPos = clampQ ((ratTrunc (start_time * (snd.frequency : ℚ)) : Int) : ℚ) 0 ((snd.samples - 1 : Int) : ℚ) := by
    rw [hv]; rfl
  have hstartmem := clampQ_mem ((ratTrunc (start_time * (snd.frequency : ℚ)) : Int) : ℚ) 0 ((snd.samples - 1 : Int) : ℚ) hhi
  have hstart0 : 0 ≤ v.startPos := by rw [hstart]; exact hstartmem.1
  have hstarthi : v.startPos ≤ ((snd.samples - 1 : Int) : ℚ) := by
    rw [hstart]; exact hstartmem.2
  have hstop : v.stopPos = clampQ ((ratTrunc (end_time * (snd.frequency : ℚ)) : Int) : ℚ) v.startPos ((snd.samples - 1 : Int) : ℚ) := by
    rw [hstart, hv]; rfl
  have hstopmem := clampQ_mem ((ratTrunc (end_time * (snd.frequency : ℚ)) : Int) : ℚ) v.startPos ((snd.samples - 1 : Int) : ℚ) hstarthi
  refine ⟨⟨by rw [hv]; rfl, ?_, ?_⟩, ⟨by rw [hv]; rfl, ?_, ?_⟩,
    ⟨by rw [hv]; rfl, ?_, ?_⟩, ?_, ?_, hstart0, ?_, ?_⟩
  · have := (clampQ_mem pitch (1 / 100000) 1000 (by norm_num)).1
    rw [hv]; exact this
  · have := (clampQ_mem pitch (1 / 100000) 1000 (by norm_num)).2
    rw [hv]; exact this
  · have := (clampQ_mem pan (-1) 1 (by norm_num)).1
    rw [hv]; exact this
  · have := (clampQ_mem pan (-1) 1 (by norm_num)).2
    rw [hv]; exact this
  · have := (clampQ_mem volume 0 100000 (by norm_num)).1
    rw [hv]; exact this
  · have := (clampQ_mem volume 0 100000 (by norm_num)).2
    rw [hv]; exact this
  · rw [hstart, clampQ_trunc_eq_clampQ_floor _ _ _ (le_refl 0) hhi]
  · rw [hstop, clampQ_trunc_eq_clampQ_floor _ _ _ hstart0 hstarthi]
  · rw [hstop]; exact hstopmem.1
  · rw [hstop]; exact hstopmem.2

theorem C8_witness :
    let st0 : SoundState := freshState
    let asset : PcmSound := ⟨48000, 4, 1, some [1, 0, 0, 0]⟩
    let r := play_sound_internal st0 asset 7 0 (-3) (-1) 100 false 0
    let v := r.1.voices.getD (allocIdx st0.voices).toNat default
    (v.pitch = clampQ 0 (1 / 100000) 1000 ∧
      1 / 100000 ≤ v.pitch ∧ v.pitch ≤ 1000) ∧
    (v.pan = clampQ (-3) (-1) 1 ∧ -1 ≤ v.pan ∧ v.pan ≤ 1) ∧
    (v.volume = clampQ 7 0 100000 ∧ 0 ≤ v.volume ∧ v.volume ≤ 100000) ∧
    v.startPos = clampQ ((Int.floor ((-1 : ℚ) * ((48000 : Int) : ℚ)) : Int) : ℚ) 0 (((4 : Int) - 1 : Int) : ℚ) ∧
    v.stopPos = clampQ ((Int.floor ((100 : ℚ) * ((48000 : Int) : ℚ)) : Int) : ℚ) v.startPos (((4 : Int) - 1 : Int) : ℚ) ∧
    0 ≤ v.startPos ∧ v.startPos ≤ v.stopPos ∧
    v.stopPos ≤ (((4 : Int) - 1 : Int) : ℚ) :=
  C8_input_clamping freshState ⟨48000, 4, 1, some [1, 0, 0, 0]⟩ 7 0 (-3) (-1)
    100 false 0 (by simp [freshState]) (by decide)

/-- **C7.** Defer semantics of `play`: with `defer_seconds > 0` the voice is
created waiting (`waitingStart = true`, `timeToStart = defer_seconds`,
`pos = startPos`); with `defer_seconds < 0` it starts immediately at
`pos = min(trunc(-defer_seconds * frequency), stopPos)`; with
`defer_seconds = 0` it starts immediately from `startPos`.  While waiting, a
mix call whose chunk duration is below the remaining delay only decrements
`timeToStart` and contributes nothing to the buffer; the per-sample loop
likewise leaves the frame untouched on the sample where the delay crosses
zero, clearing `waitingStart` and setting `pos = startPos` so mixing begins
from `startPos`. -/
theorem C7_defer_semantics (st : SoundState) (snd : PcmSound)
    (volume pitch pan start_time end_time : ℚ) (loop : Bool) (defer : ℚ)
    (hlen : st.voices.length = 128)
    (hsucc : ¬(allocIdx st.voices < 0 ∨ snd.samples ≤ 2)) :
    let r := play_sound_internal st snd volume pitch pan start_time end_time loop defer
    let v := r.1.voices.getD (allocIdx st.voices).toNat default
    ((0 < defer → v.waitingStart = true ∧ v.timeToStart = defer ∧ v.pos = v.startPos) ∧
     (defer < 0 → v.waitingStart = false ∧ v.timeToStart = 0 ∧
        v.pos = min ((ratTrunc (-defer * (snd.frequency : ℚ)) : Int) : ℚ) v.stopPos) ∧
     (defer = 0 → v.waitingStart = false ∧ v.timeToStart = 0 ∧ v.pos = v.startPos)) ∧
    (∀ (w : PlayingSound) (a : PcmSound) (ld : List ℚ) (master : ℚ)
        (mix : List Frame) (count : Nat) (freq : Int) (inv bt : ℚ),
        w.waitingStart = true → w.sound = some a → a.data = some ld →
        bt < w.timeToStart →
        w.mixTo master mix count freq inv bt =
          ({ w with timeToStart := w.timeToStart - bt }, mix)) ∧
    (∀ (d : Nat → ℚ) (adv wL wR inv : ℚ) (n : Nat) (w : PlayingSound)
        (f : Frame) (rest : List Frame),
        w.waitingStart = true → w.timeToStart - inv ≤ 0 →
        slowMixMono d adv wL wR inv (n + 1) w (f :: rest) =
          ((slowMixMono d adv wL wR inv n { w with timeToStart := w.timeToStart - inv, waitingStart := false, pos := w.startPos } rest).1,
           f :: (slowMixMono d adv wL wR inv n { w with timeToStart := w.timeToStart - inv, waitingStart := false, pos := w.startPos } rest).2)) := by
  intro r v
  push_neg at hsucc
  obtain ⟨h0, h3⟩ := hsucc
  have hi : (allocIdx st.voices).toNat < 128 :=
    (allocScan_spec st.voices 127 1 _ rfl h0).2.1
  have he := play_success_eq st snd volume pitch pan start_time end_time loop defer
    hlen h0 h3
  have hv : v = playedVoice st.master_volume snd volume pitch pan start_time
      end_time loop defer { (st.voices.getD (allocIdx st.voices).toNat default) with version := (st.voices.getD (allocIdx st.voices).toNat default).version + 128 } := by
    show (play_sound_internal st snd volume pitch pan start_time end_time loop
        defer).1.voices.getD (allocIdx st.voices).toNat default = _
    rw [he]
    exact getD_set_self _ _ _ _ (by simp [hlen]; exact hi)
  refine ⟨⟨?_, ?_, ?_⟩, ?_, ?_⟩
  · intro hd
    have hmax : max defer 0 = defer := max_eq_left hd.le
    refine ⟨?_, ?_, ?_⟩
    · rw [hv]; simp [playedVoice, hmax]; exact hd.ne'
    · rw [hv]; simp [playedVoice, hmax]
    · rw [hv]
      simp only [playedVoice]
      rw [if_neg (by linarith)]
  · intro hd
    have hmax : max defer 0 = 0 := max_eq_right hd.le
    refine ⟨?_, ?_, ?_⟩
    · rw [hv]; simp [playedVoice, hmax]
    · rw [hv]; simp [playedVoice, hmax]
    · rw [hv]
      simp only [playedVoice]
      rw [if_pos hd]
  · intro hd
    subst hd
    have hmax : max (0 : ℚ) 0 = 0 := max_self 0
    refine ⟨?_, ?_, ?_⟩
    · rw [hv]; simp [playedVoice, hmax]
    · rw [hv]; simp [playedVoice, hmax]
    · rw [hv]
      simp only [playedVoice]
      rw [if_neg (by norm_num)]
  · intro w a ld master mix count freq inv bt hw hsnd hdata hbt
    rw [PlayingSound.mixTo]
    simp only [hsnd, hdata]
    rw [if_neg (by simp [hw]), if_pos ⟨hw, hbt⟩]
  · intro d adv wL wR inv n w f rest hw ht
    rw [slowMixMono]
    rw [if_pos (by simp [hw])]
    simp [ht]

theorem C7_witness :
    let st0 : SoundState := freshState
    let asset : PcmSound := ⟨48000, 4, 1, some [1, 0, 0, 0]⟩
    let r := play_sound_internal st0 asset 1 1 0 0 100 false (1/2)
    let v := r.1.voices.getD (allocIdx st0.voices).toNat default
    (0 : ℚ) < 1/2 ∧
    (v.waitingStart = true ∧ v.timeToStart = 1/2 ∧ v.pos = v.startPos) :=
  ⟨by norm_num,
   (C7_defer_semantics freshState ⟨48000, 4, 1, some [1, 0, 0, 0]⟩ 1 1 0 0 100
      false (1/2) (by simp [freshState]) (by decide)).1.1 (by norm_num)⟩

namespace sound

theorem allocScan_neg_or_nonneg (voices : List PlayingSound) :
    ∀ (fuel i : Nat), allocScan voices i fuel = -1 ∨ 0 ≤ allocScan voices i fuel := by
  intro fuel
  induction fuel with
  | zero => intro i; left; rfl
  | succ m ih =>
    intro i
    rw [allocScan]
    by_cases he : (voices.getD i default).isEmpty
    · rw [if_pos he]; right; omega
    · rw [if_neg he]; exact ih (i + 1)

/-- A zero handle never validates. -/
theorem handle_zero_invalid (voices : List PlayingSound) :
    is_handle_valid voices ⟨0⟩ = false := by
  rw [is_handle_valid]
  show (_ && decide (0 < handleIdx 0)) = false
  have h0 : handleIdx 0 = 0 := rfl
  rw [h0]
  simp

end sound

/-- **C9.** Play failure: `play` returns the invalid zero handle (for which
`handle_to_index` fails, so all operations are silent no-ops) precisely when
no voice slot is free — equivalently, every slot `1..127` is non-empty — or
the asset has fewer than 3 samples; in every other case it returns a handle
that validates and resolves to the allocated slot. -/
theorem C9_play_failure (st : SoundState) (snd : PcmSound)
    (volume pitch pan start_time end_time : ℚ) (loop : Bool) (defer : ℚ)
    (hlen : st.voices.length = 128)
    (hver : ∀ w ∈ st.voices, w.version % 128 = 0) :
    let r := play_sound_internal st snd volume pitch pan start_time end_time loop defer
    ((r.2 = PlayingSoundHandle.invalid) ↔
        (allocIdx st.voices < 0 ∨ snd.samples ≤ 2)) ∧
    (allocIdx st.voices < 0 ↔
        ∀ j, 1 ≤ j → j < 128 → (st.voices.getD j default).isEmpty = false) ∧
    handle_to_index r.1.voices PlayingSoundHandle.invalid = -1 ∧
    (¬(allocIdx st.voices < 0 ∨ snd.samples ≤ 2) →
        is_handle_valid r.1.voices r.2 = true ∧
        handle_to_index r.1.voices r.2 = allocIdx st.voices) := by
  intro r
  have hnegiff : allocIdx st.voices < 0 ↔ allocIdx st.voices = -1 := by
    rcases allocScan_neg_or_nonneg st.voices 127 1 with h | h
    · rw [allocIdx] at *; omega
    · rw [allocIdx] at *; omega
  constructor
  · -- failure iff
    by_cases hc : allocIdx st.voices < 0 ∨ snd.samples ≤ 2
    · have hr2 : r.2 = PlayingSoundHandle.invalid := by
        show (play_sound_internal st snd volume pitch pan start_time end_time
            loop defer).2 = _
        rw [play_sound_internal]
        have ha1 : (allocate_playing_sound st.voices).1 < 0 ∨ snd.samples ≤ 2 := by
          rw [allocate_playing_sound]
          rcases hc with hc | hc
          · rw [if_pos hc]; left; norm_num
          · right; exact hc
        simp only
        rw [if_pos ha1]
      simp [hr2, hc]
    · push_neg at hc
      obtain ⟨h0', h3⟩ := hc
      have h0 : 0 ≤ allocIdx st.voices := by omega
      have hspec := allocScan_spec st.voices 127 1 _ rfl h0
      have hil : (allocIdx st.voices).toNat < st.voices.length := by
        rw [hlen]; exact hspec.2.1
      have hmem : st.voices.getD (allocIdx st.voices).toNat default ∈ st.voices := by
        rw [List.getD_eq_getElem _ _ hil]
        exact List.getElem_mem hil
      have hvmod : (st.voices.getD (allocIdx st.voices).toNat default).version % 128 = 0 :=
        hver _ hmem
      have he := play_success_eq st snd volume pitch pan start_time end_time loop
        defer hlen h0 h3
      have hr2 : r.2 = ⟨(allocIdx st.voices).toNat |||
          ((st.voices.getD (allocIdx st.voices).toNat default).version + 128)⟩ := by
        show (play_sound_internal st snd volume pitch pan start_time end_time
            loop defer).2 = _
        rw [he]
      have hlor : (allocIdx st.voices).toNat |||
          ((st.voices.getD (allocIdx st.voices).toNat default).version + 128) =
          (allocIdx st.voices).toNat +
          ((st.voices.getD (allocIdx st.voices).toNat default).version + 128) :=
        lor_eq_add_of_lt _ _ hspec.2.1 (by omega)
      constructor
      · intro hinv
        rw [hr2] at hinv
        have : (allocIdx st.voices).toNat |||
            ((st.voices.getD (allocIdx st.voices).toNat default).version + 128) = 0 := by
          have := congrArg PlayingSoundHandle.handle hinv
          simpa [PlayingSoundHandle.invalid] using this
        rw [hlor] at this
        omega
      · intro hcon
        exact absurd hcon (by push_neg; exact ⟨by omega, by omega⟩)
  refine ⟨?_, ?_, ?_⟩
  · -- pool-full characterization
    rw [hnegiff, allocIdx, allocScan_neg_iff st.voices 127 1]
  · -- the zero handle never resolves
    have hz : is_handle_valid r.1.voices PlayingSoundHandle.invalid = false :=
      handle_zero_invalid r.1.voices
    rw [handle_to_index, if_neg (by simp [hz])]
  · -- success: the returned handle validates and resolves to the slot
    intro hc
    push_neg at hc
    obtain ⟨h0', h3⟩ := hc
    have h0 : 0 ≤ allocIdx st.voices := by omega
    have hspec := allocScan_spec st.voices 127 1 _ rfl h0
    have hil : (allocIdx st.voices).toNat < st.voices.length := by
      rw [hlen]; exact hspec.2.1
    have hmem : st.voices.getD (allocIdx st.voices).toNat default ∈ st.voices := by
      rw [List.getD_eq_getElem _ _ hil]
      exact List.getElem_mem hil
    have hvmod : (st.voices.getD (allocIdx st.voices).toNat default).version % 128 = 0 :=
      hver _ hmem
    have he := play_success_eq st snd volume pitch pan start_time end_time loop
      defer hlen h0 h3
    have hlor : (allocIdx st.voices).toNat |||
        ((st.voices.getD (allocIdx st.voices).toNat default).version + 128) =
        (allocIdx st.voices).toNat +
        ((st.voices.getD (allocIdx st.voices).toNat default).version + 128) :=
      lor_eq_add_of_lt _ _ hspec.2.1 (by omega)
    obtain ⟨k, hk⟩ : (128 : Nat) ∣ (st.voices.getD (allocIdx st.voices).toNat default).version + 128 :=
      Nat.dvd_of_mod_eq_zero (by omega)
    have hlt : (allocIdx st.voices).toNat < 128 := by omega
    have hidx : handleIdx ((allocIdx st.voices).toNat |||
        ((st.voices.getD (allocIdx st.voices).toNat default).version + 128)) =
        (allocIdx st.voices).toNat := by
      rw [hlor, handleIdx, and127_eq_mod, hk, Nat.add_mul_mod_self_left,
        Nat.mod_eq_of_lt hlt]
    have hverbits : handleVer ((allocIdx st.voices).toNat |||
        ((st.voices.getD (allocIdx st.voices).toNat default).version + 128)) =
        (st.voices.getD (allocIdx st.voices).toNat default).version + 128 := by
      rw [handleVer, and127_eq_mod, hlor, hk, Nat.add_mul_mod_self_left,
        Nat.mod_eq_of_lt hlt, ← hk]
      omega
    have hr1 : r.1.voices = st.voices.set (allocIdx st.voices).toNat
        (playedVoice st.master_volume snd volume pitch pan start_time end_time loop defer { (st.voices.getD (allocIdx st.voices).toNat default) with version := (st.voices.getD (allocIdx st.voices).toNat default).version + 128 }) := by
      show (play_sound_internal st snd volume pitch pan start_time end_time
          loop defer).1.voices = _
      rw [he]
    have hr2 : r.2 = ⟨(allocIdx st.voices).toNat |||
        ((st.voices.getD (allocIdx st.voices).toNat default).version + 128)⟩ := by
      show (play_sound_internal st snd volume pitch pan start_time end_time
          loop defer).2 = _
      rw [he]
    have hgd : r.1.voices.getD (allocIdx st.voices).toNat default =
        playedVoice st.master_volume snd volume pitch pan start_time end_time loop defer { (st.voices.getD (allocIdx st.voices).toNat default) with version := (st.voices.getD (allocIdx st.voices).toNat default).version + 128 } := by
      rw [hr1]
      exact getD_set_self _ _ _ _ hil
    have hv : is_handle_valid r.1.voices r.2 = true := by
      rw [hr2, is_handle_valid]
      show (((r.1.voices.getD (handleIdx ((allocIdx st.voices).toNat ||| ((st.voices.getD (allocIdx st.voices).toNat default).version + 128))) default).version == handleVer ((allocIdx st.voices).toNat ||| ((st.voices.getD (allocIdx st.voices).toNat default).version + 128))) && decide (0 < handleIdx ((allocIdx st.voices).toNat ||| ((st.voices.getD (allocIdx st.voices).toNat default).version + 128)))) = true
      rw [Bool.and_eq_true]
      constructor
      · rw [hidx, hverbits, hgd]
        exact beq_iff_eq.mpr rfl
      · rw [hidx]
        simp only [decide_eq_true_eq]
        have hge : 1 ≤ (allocIdx st.voices).toNat := hspec.1
        omega
    refine ⟨hv, ?_⟩
    rw [hr2, handle_to_index, if_pos (by rw [← hr2]; exact (by simpa using hv))]
    show ((handleIdx _ : Nat) : Int) = _
    rw [hidx]
    omega

set_option maxRecDepth 40000 in
theorem C9_witness :
    let st0 : SoundState := freshState
    let asset : PcmSound := ⟨48000, 4, 1, some [1, 0, 0, 0]⟩
    let r := play_sound_internal st0 asset 1 1 0 0 100 false 0
    ¬(allocIdx st0.voices < 0 ∨ asset.samples ≤ 2) ∧
    ((r.2 = PlayingSoundHandle.invalid) ↔
        (allocIdx st0.voices < 0 ∨ asset.samples ≤ 2)) ∧
    (is_handle_valid r.1.voices r.2 = true ∧
        handle_to_index r.1.voices r.2 = allocIdx st0.voices) := by
  have h := C9_play_failure freshState ⟨48000, 4, 1, some [1, 0, 0, 0]⟩ 1 1 0 0
    100 false 0 (by simp [freshState]) (by decide)
  exact ⟨by decide, h.1, h.2.2.2 (by decide)⟩

namespace sound

theorem padTo_length (l : List ℚ) (n : Nat) (h : l.length ≤ n) :
    (padTo l n).length = n := by
  simp [padTo]
  omega

theorem interleave_length : ∀ (l : List Frame), (interleave l).length = 2 * l.length := by
  intro l
  induction l with
  | nil => simp [interleave]
  | cons f r ih => simp [interleave, ih]; omega

theorem copyInto_length : ∀ (buf src : List ℚ) (count : Nat),
    (copyInto buf src count).length = buf.length := by
  intro buf
  induction buf with
  | nil => intro src count; cases src <;> cases count <;> rfl
  | cons b bs ih =>
    intro src count
    cases count with
    | zero => cases src <;> simp [copyInto]
    | succ n =>
      cases src with
      | nil => simp [copyInto, ih [] n]
      | cons s ss => simp [copyInto, ih ss n]

theorem copyIntoDup_length : ∀ (buf src : List ℚ) (count : Nat),
    (copyIntoDup buf src count).length = buf.length
  | buf, src, 0 => by
      rcases buf with _ | ⟨b, _ | ⟨b2, bs⟩⟩ <;> rcases src with _ | ⟨s0, ss⟩ <;>
        simp [copyIntoDup]
  | [], src, count + 1 => by cases src <;> simp [copyIntoDup]
  | [b], src, count + 1 => by cases src <;> simp [copyIntoDup]
  | b :: b2 :: bs, s :: ss, n + 1 => by
      simp [copyIntoDup, copyIntoDup_length bs ss n]
  | b :: b2 :: bs, [], n + 1 => by
      simp [copyIntoDup, copyIntoDup_length bs [] n]

theorem copyIntoAvg_length : ∀ (buf : List ℚ) (src : List Frame) (count : Nat),
    (copyIntoAvg buf src count).length = buf.length := by
  intro buf
  induction buf with
  | nil => intro src count; cases src <;> cases count <;> rfl
  | cons b bs ih =>
    intro src count
    cases count with
    | zero => cases src <;> simp [copyIntoAvg]
    | succ n =>
      cases src with
      | nil => simp [copyIntoAvg, ih [] n]
      | cons s ss => simp [copyIntoAvg, ih ss n]

end sound

/-- **C5.** Guard-frame invariant: after every successful asset creation
(`create_sound`, `create_sound_stereo`, the post-decoder tail of
`create_sound_from_file`) and after every bulk sample mutation
(`set_sound_data`, `set_sound_data_stereo`) on a well-formed asset with a
non-empty input, the sample buffer satisfies `data[samples] = data[0]` for a
mono asset, and `data[2*samples] = data[0]`, `data[2*samples+1] = data[1]`
for a stereo asset. -/
theorem C5_guard_frame :
    (∀ (f : Int) (input : List ℚ) (buf : List ℚ),
       (create_sound f input).data = some buf →
       buf.getD (create_sound f input).samples.toNat 0 = buf.getD 0 0) ∧
    (∀ (f : Int) (input : List Frame) (buf : List ℚ),
       (create_sound_stereo f input).data = some buf →
       buf.getD (2 * (create_sound_stereo f input).samples).toNat 0 = buf.getD 0 0 ∧
       buf.getD (2 * (create_sound_stereo f input).samples + 1).toNat 0 = buf.getD 1 0) ∧
    (∀ (ch sr frames : Int) (pcm : List ℚ) (buf : List ℚ), 1 ≤ frames →
       (create_sound_from_decoded ch sr frames pcm).data = some buf →
       (if ch = 2 then
          buf.getD (2 * frames).toNat 0 = buf.getD 0 0 ∧
          buf.getD (2 * frames + 1).toNat 0 = buf.getD 1 0
        else buf.getD frames.toNat 0 = buf.getD 0 0)) ∧
    (∀ (s : PcmSound) (in_data : List ℚ) (buf0 buf : List ℚ),
       s.data = some buf0 → s.channels = 1 → 1 ≤ s.samples →
       s.samples.toNat < buf0.length → in_data ≠ [] →
       (set_sound_data s in_data).data = some buf →
       buf.getD s.samples.toNat 0 = buf.getD 0 0) ∧
    (∀ (s : PcmSound) (in_data : List ℚ) (buf0 buf : List ℚ),
       s.data = some buf0 → s.channels = 2 → 1 ≤ s.samples →
       (2 * s.samples + 1).toNat < buf0.length → in_data ≠ [] →
       (set_sound_data s in_data).data = some buf →
       buf.getD (2 * s.samples).toNat 0 = buf.getD 0 0 ∧
       buf.getD (2 * s.samples + 1).toNat 0 = buf.getD 1 0) ∧
    (∀ (s : PcmSound) (in_data : List Frame) (buf0 buf : List ℚ),
       s.data = some buf0 → s.channels = 1 → 1 ≤ s.samples →
       s.samples.toNat < buf0.length → in_data ≠ [] →
       (set_sound_data_stereo s in_data).data = some buf →
       buf.getD s.samples.toNat 0 = buf.getD 0 0) ∧
    (∀ (s : PcmSound) (in_data : List Frame) (buf0 buf : List ℚ),
       s.data = some buf0 → s.channels = 2 → 1 ≤ s.samples →
       (2 * s.samples + 1).toNat < buf0.length → in_data ≠ [] →
       (set_sound_data_stereo s in_data).data = some buf →
       buf.getD (2 * s.samples).toNat 0 = buf.getD 0 0 ∧
       buf.getD (2 * s.samples + 1).toNat 0 = buf.getD 1 0) := by
  refine ⟨?_, ?_, ?_, ?_, ?_, ?_, ?_⟩
  · -- create_sound
    intro f input buf h
    by_cases hc : f < 1 ∨ input = []
    · rw [create_sound, if_pos hc] at h
      cases h
    · push_neg at hc
      rw [create_sound, if_neg (by push_neg; exact hc)] at h ⊢
      simp only [Option.some_inj] at h
      subst h
      have hne : input.length ≠ 0 := by
        intro h0; exact hc.2 (List.eq_nil_of_length_eq_zero h0)
      have hlen : (padTo input (input.length + 4)).length = input.length + 4 :=
        padTo_length _ _ (by omega)
      have hsm : ((input.length : Int)).toNat = input.length := by omega
      rw [hsm]
      rw [getD_set_self _ _ _ _ (by omega),
        getD_set_ne _ _ _ _ _ (by omega)]
  · -- create_sound_stereo
    intro f input buf h
    by_cases hc : f < 1 ∨ input = []
    · rw [create_sound_stereo, if_pos hc] at h
      cases h
    · push_neg at hc
      rw [create_sound_stereo, if_neg (by push_neg; exact hc)] at h ⊢
      simp only [Option.some_inj] at h
      subst h
      have hne : input.length ≠ 0 := by
        intro h0; exact hc.2 (List.eq_nil_of_length_eq_zero h0)
      have hlen : (padTo (interleave input) (2 * (input.length + 4))).length =
          2 * (input.length + 4) :=
        padTo_length _ _ (by rw [interleave_length]; omega)
      have hsm : ((2 * (input.length : Int)).toNat) = 2 * input.length := by omega
      have hsm1 : ((2 * (input.length : Int) + 1).toNat) = 2 * input.length + 1 := by
        omega
      rw [hsm, hsm1]
      constructor
      · rw [getD_set_ne _ _ _ _ _ (by omega),
          getD_set_self _ _ _ _ (by omega),
          getD_set_ne _ _ _ _ _ (by omega),
          getD_set_ne _ _ _ _ _ (by omega)]
      · rw [getD_set_self _ _ _ _ (by simp only [List.length_set]; omega),
          getD_set_ne _ _ _ _ _ (by omega),
          getD_set_ne _ _ _ _ _ (by omega),
          getD_set_ne _ _ _ _ _ (by omega)]
  · -- create_sound_from_decoded
    intro ch sr frames pcm buf h1 h
    by_cases hc : ch ≠ 1 ∧ ch ≠ 2
    · rw [create_sound_from_decoded, if_pos hc] at h
      cases h
    · rw [create_sound_from_decoded, if_neg hc] at h
      have hch : ch = 1 ∨ ch = 2 := by tauto
      have htk : (pcm.take (ch * frames).toNat).length ≤
          (PcmSound.mk sr frames ch none).dataFloats := by
        simp only [List.length_take, PcmSound.dataFloats]
        rcases hch with h2 | h2 <;> subst h2 <;> omega
      have hlen : (padTo (pcm.take (ch * frames).toNat)
          (PcmSound.mk sr frames ch none).dataFloats).length =
          (PcmSound.mk sr frames ch none).dataFloats :=
        padTo_length _ _ htk
      rcases hch with h2 | h2
      · subst h2
        simp only [show ((1 : Int) = 2) ↔ False from by norm_num, if_false,
          Option.some_inj] at h
        subst h
        rw [if_neg (by norm_num : ¬(1 : Int) = 2)]
        have hdf : (PcmSound.mk sr frames 1 none).dataFloats = frames.toNat + 4 := by
          simp only [PcmSound.dataFloats]; omega
        rw [getD_set_self _ _ _ _ (by omega),
          getD_set_ne _ _ _ _ _ (by omega)]
      · subst h2
        simp only [show ((2 : Int) = 2) ↔ True from by norm_num, if_true,
          Option.some_inj] at h
        subst h
        rw [if_pos (show (2 : Int) = 2 from rfl)]
        have hdf : (PcmSound.mk sr frames 2 none).dataFloats =
            2 * frames.toNat + 8 := by
          simp only [PcmSound.dataFloats]; omega
        constructor
        · rw [getD_set_ne _ _ _ _ _ (by omega),
            getD_set_self _ _ _ _ (by omega),
            getD_set_ne _ _ _ _ _ (by omega),
            getD_set_ne _ _ _ _ _ (by omega)]
        · rw [getD_set_self _ _ _ _ (by simp only [List.length_set]; omega),
            getD_set_ne _ _ _ _ _ (by omega),
            getD_set_ne _ _ _ _ _ (by omega),
            getD_set_ne _ _ _ _ _ (by omega)]
  · -- set_sound_data, mono asset
    intro s in_data buf0 buf hd hch hs hbl hne h
    rw [set_sound_data] at h
    rw [hd] at h
    simp only at h
    rw [if_neg (by
        have : 0 < (in_data.length : Int) := by
          have : in_data.length ≠ 0 := fun h0 => hne (List.eq_nil_of_length_eq_zero h0)
          omega
        omega : ¬ min s.samples (in_data.length : Int) = 0)] at h
    rw [if_pos hch] at h
    simp only [Option.some_inj] at h
    subst h
    have hcl : (copyInto buf0 in_data (min s.samples (in_data.length : Int)).toNat).length = buf0.length :=
      copyInto_length _ _ _
    rw [getD_set_self _ _ _ _ (by omega),
      getD_set_ne _ _ _ _ _ (by omega)]
  · -- set_sound_data, stereo asset
    intro s in_data buf0 buf hd hch hs hbl hne h
    rw [set_sound_data] at h
    rw [hd] at h
    simp only at h
    rw [if_neg (by
        have : 0 < (in_data.length : Int) := by
          have : in_data.length ≠ 0 := fun h0 => hne (List.eq_nil_of_length_eq_zero h0)
          omega
        omega : ¬ min s.samples (in_data.length : Int) = 0)] at h
    rw [if_neg (by rw [hch]; norm_num), if_pos hch] at h
    simp only [Option.some_inj] at h
    subst h
    have hcl : (copyIntoDup buf0 in_data (min s.samples (in_data.length : Int)).toNat).length = buf0.length :=
      copyIntoDup_length _ _ _
    constructor
    · rw [getD_set_ne _ _ _ _ _ (by omega),
        getD_set_self _ _ _ _ (by omega),
        getD_set_ne _ _ _ _ _ (by omega),
        getD_set_ne _ _ _ _ _ (by omega)]
    · rw [getD_set_self _ _ _ _ (by simp only [List.length_set]; omega),
        getD_set_ne _ _ _ _ _ (by omega),
        getD_set_ne _ _ _ _ _ (by omega),
        getD_set_ne _ _ _ _ _ (by omega)]
  · -- set_sound_data_stereo, mono asset
    intro s in_data buf0 buf hd hch hs hbl hne h
    rw [set_sound_data_stereo] at h
    rw [hd] at h
    simp only at h
    rw [if_neg (by
        have : 0 < (in_data.length : Int) := by
          have : in_data.length ≠ 0 := fun h0 => hne (List.eq_nil_of_length_eq_zero h0)
          omega
        omega : ¬ min s.samples (in_data.length : Int) = 0)] at h
    rw [if_pos hch] at h
    simp only [Option.some_inj] at h
    subst h
    have hcl : (copyIntoAvg buf0 in_data (min s.samples (in_data.length : Int)).toNat).length = buf0.length :=
      copyIntoAvg_length _ _ _
    rw [getD_set_self _ _ _ _ (by omega),
      getD_set_ne _ _ _ _ _ (by omega)]
  · -- set_sound_data_stereo, stereo asset
    intro s in_data buf0 buf hd hch hs hbl hne h
    rw [set_sound_data_stereo] at h
    rw [hd] at h
    simp only at h
    rw [if_neg (by
        have : 0 < (in_data.length : Int) := by
          have : in_data.length ≠ 0 := fun h0 => hne (List.eq_nil_of_length_eq_zero h0)
          omega
        omega : ¬ min s.samples (in_data.length : Int) = 0)] at h
    rw [if_neg (by rw [hch]; norm_num), if_pos hch] at h
    simp only [Option.some_inj] at h
    subst h
    have hcl : (copyInto buf0 (interleave in_data) (2 * (min s.samples (in_data.length : Int)).toNat)).length = buf0.length :=
      copyInto_length _ _ _
    constructor
    · rw [getD_set_ne _ _ _ _ _ (by omega),
        getD_set_self _ _ _ _ (by omega),
        getD_set_ne _ _ _ _ _ (by omega),
        getD_set_ne _ _ _ _ _ (by omega)]
    · rw [getD_set_self _ _ _ _ (by simp only [List.length_set]; omega),
        getD_set_ne _ _ _ _ _ (by omega),
        getD_set_ne _ _ _ _ _ (by omega),
        getD_set_ne _ _ _ _ _ (by omega)]

theorem C5_witness :
    (create_sound 48000 [1, 2]).data = some [1, 2, 1, 0, 0, 0] ∧
    ([1, 2, 1, 0, 0, 0] : List ℚ).getD (create_sound 48000 [1, 2]).samples.toNat 0 =
      ([1, 2, 1, 0, 0, 0] : List ℚ).getD 0 0 ∧
    (set_sound_data ⟨48000, 2, 1, some [1, 2, 1, 0, 0, 0]⟩ [5, 6]).data =
      some [5, 6, 5, 0, 0, 0] ∧
    ([5, 6, 5, 0, 0, 0] : List ℚ).getD
        (PcmSound.mk 48000 2 1 (some [1, 2, 1, 0, 0, 0])).samples.toNat 0 =
      ([5, 6, 5, 0, 0, 0] : List ℚ).getD 0 0 :=
  ⟨rfl,
   C5_guard_frame.1 48000 [1, 2] [1, 2, 1, 0, 0, 0] rfl,
   rfl,
   C5_guard_frame.2.2.2.1 ⟨48000, 2, 1, some [1, 2, 1, 0, 0, 0]⟩ [5, 6]
     [1, 2, 1, 0, 0, 0] [5, 6, 5, 0, 0, 0] rfl rfl (by norm_num) (by norm_num)
     (by simp) rfl⟩

namespace sound

/-- A chunk over a table of empty voices touches nothing. -/
theorem mixChunk_skip (master : ℚ) :
    ∀ (voices : List PlayingSound), (∀ v ∈ voices, v.isEmpty = true) →
    ∀ (buf : List Frame) (count : Nat) (freq : Int) (inv bt : ℚ),
      mixChunk master voices buf count freq inv bt = (voices, buf) := by
  intro voices
  induction voices with
  | nil => intro _ buf count freq inv bt; rfl
  | cons v vs ih =>
    intro hv buf count freq inv bt
    rw [mixChunk]
    rw [if_pos (hv v (List.mem_cons_self v vs))]
    rw [ih (fun w hw => hv w (List.mem_cons_of_mem v hw))]

/-- The loop exits immediately once `samples ≤ 0`. -/
theorem fillLoop_stop (master : ℚ) (freq : Int) (inv : ℚ) (fuel : Nat)
    (voices : List PlayingSound) (buf : List Frame) (samples tsp : Int) (ttp : ℚ)
    (hs : samples ≤ 0) :
    fillLoop master freq inv fuel voices buf samples tsp ttp =
      (voices, buf, tsp, ttp) := by
  cases fuel with
  | zero => rfl
  | succ m => rw [fillLoop, if_pos hs]

/-- One loop iteration over a table of empty voices: the buffer pointer
advances by 256 frames and — after the decrement of `samples` — the
counters advance by `min(samples - 256, 256)`. -/
theorem fillLoop_empty_step (master : ℚ) (freq : Int) (inv : ℚ) (fuel : Nat)
    (voices : List PlayingSound) (hvo : ∀ v ∈ voices, v.isEmpty = true)
    (buf : List Frame) (samples tsp : Int) (ttp : ℚ) (hs : 0 < samples) :
    fillLoop master freq inv (fuel + 1) voices buf samples tsp ttp =
      ((fillLoop master freq inv fuel voices (buf.drop 256) (samples - 256) (tsp + min (samples - 256) 256) (ttp + ((min (samples - 256) 256 : Int) : ℚ) * inv)).1,
       buf.take 256 ++ (fillLoop master freq inv fuel voices (buf.drop 256) (samples - 256) (tsp + min (samples - 256) 256) (ttp + ((min (samples - 256) 256 : Int) : ℚ) * inv)).2.1,
       (fillLoop master freq inv fuel voices (buf.drop 256) (samples - 256) (tsp + min (samples - 256) 256) (ttp + ((min (samples - 256) 256 : Int) : ℚ) * inv)).2.2.1,
       (fillLoop master freq inv fuel voices (buf.drop 256) (samples - 256) (tsp + min (samples - 256) 256) (ttp + ((min (samples - 256) 256 : Int) : ℚ) * inv)).2.2.2) := by
  rw [fillLoop, if_neg (by omega)]
  simp only [mixChunk_skip master voices hvo]

end sound

/-- **C3.** The claim fails on the code: `fill_buffer_cb` updates the
transport counters with `min(samples, step)` computed *after* `samples` has
been decremented, and `samples` is a signed `int` that goes negative on the
final chunk.  For a callback of 300 frames from the fresh state the code
adds `min(44, 256) = 44` and then `min(-212, 256) = -212`, so
`total_samples_played` ends at `-168` and `total_time_played` at
`-168/48000 = -7/2000`: the counters do not grow by the 300 frames
produced, and both strictly decrease — contradicting monotonicity. -/
theorem C3_transport_counters_miscount :
    (fill_buffer_cb freshState 48000 300).1.total_samples_played = -168 ∧
    (fill_buffer_cb freshState 48000 300).1.total_time_played = -7 / 2000 ∧
    freshState.total_samples_played = 0 ∧ freshState.total_time_played = 0 ∧
    (fill_buffer_cb freshState 48000 300).1.total_samples_played <
      freshState.total_samples_played ∧
    (fill_buffer_cb freshState 48000 300).1.total_time_played <
      freshState.total_time_played := by
  have hvo : ∀ v ∈ freshState.voices, v.isEmpty = true := by
    intro v hv
    have := List.eq_of_mem_replicate hv
    rw [this]
    rfl
  have hmain : (fillLoop 1 48000 (1 / ((48000 : Int) : ℚ)) (300 : Int).toNat
      freshState.voices (List.replicate (300 : Int).toNat ((0 : ℚ), (0 : ℚ)))
      300 0 0).2.2.1 = -168 ∧
      (fillLoop 1 48000 (1 / ((48000 : Int) : ℚ)) (300 : Int).toNat
      freshState.voices (List.replicate (300 : Int).toNat ((0 : ℚ), (0 : ℚ)))
      300 0 0).2.2.2 = -7 / 2000 := by
    rw [show ((300 : Int).toNat) = 299 + 1 from rfl]
    rw [fillLoop_empty_step 1 48000 _ 299 freshState.voices hvo _ 300 0 0
      (by norm_num)]
    rw [show (299 : Nat) = 298 + 1 from rfl]
    rw [fillLoop_empty_step 1 48000 _ 298 freshState.voices hvo _ (300 - 256) _ _
      (by norm_num)]
    rw [fillLoop_stop 1 48000 _ 298 _ _ (300 - 256 - 256) _ _ (by norm_num)]
    have hm1 : min ((300 : Int) - 256) 256 = 44 := by norm_num
    have hm2 : min ((300 : Int) - 256 - 256) 256 = -212 := by
      rw [min_eq_left (by norm_num)]
      norm_num
    rw [hm1, hm2]
    norm_num
  rw [fill_buffer_cb]
  rw [show freshState.master_volume = 1 from rfl,
    show freshState.total_samples_played = 0 from rfl,
    show freshState.total_time_played = 0 from rfl]
  exact ⟨hmain.1, hmain.2, rfl, rfl,
    lt_of_eq_of_lt hmain.1 (by norm_num),
    lt_of_eq_of_lt hmain.2 (by norm_num)⟩

namespace sound

theorem uif_natCast (p : Nat) : uif ((p : Nat) : ℚ) = p := by
  rw [uif]
  simp

theorem lerp_zero (a b : ℚ) : lerp a b 0 = a := by
  rw [lerp]
  ring

/-- The mono asset of the single-voice scenario: `S` samples at the output
rate, data buffer `L`. -/
def monoAsset (L : List ℚ) (S : Int) : PcmSound := ⟨48000, S, 1, some L⟩

/-- The single voice while it is still playing: `play` with `volume = 1`,
`pitch = 1`, `pan = 0`, no defer, full range, having already produced `p`
output frames (so `pos = p`). -/
def playingAt (L : List ℚ) (S : Int) (p : Nat) : PlayingSound :=
  { PlayingSound.init with
      sound := some (monoAsset L S)
      channels := 1
      version := 128
      volume := 1
      pitch := 1
      pan := 0
      volumeL := 1
      volumeR := 1
      pos := (p : ℚ)
      startPos := 0
      stopPos := ((S - 1 : Int) : ℚ)
      loop := false
      stopMode := false
      timeToStart := 0
      waitingStart := false }

/-- Fast-path characterization at unit gains and unit advance over a zeroed
buffer: frame `j` receives sample `p + j`, the position advances to
`p + count`, and frames at or beyond `count` stay zero. -/
theorem fastMixMono_spec (d : Nat → ℚ) :
    ∀ (count p m : Nat), count ≤ m →
      (fastMixMono d 1 1 1 count ((p : Nat) : ℚ) (List.replicate m ((0 : ℚ), (0 : ℚ)))).1 = ((p + count : Nat) : ℚ) ∧
      (fastMixMono d 1 1 1 count ((p : Nat) : ℚ) (List.replicate m ((0 : ℚ), (0 : ℚ)))).2.length = m ∧
      ∀ j, (fastMixMono d 1 1 1 count ((p : Nat) : ℚ) (List.replicate m ((0 : ℚ), (0 : ℚ)))).2.getD j ((0 : ℚ), (0 : ℚ)) =
        if j < count then (d (p + j), d (p + j)) else ((0 : ℚ), (0 : ℚ)) := by
  intro count
  induction count with
  | zero =>
    intro p m hm
    refine ⟨by rw [fastMixMono]; norm_num, by simp [fastMixMono], ?_⟩
    intro j
    rw [fastMixMono]
    rw [getD_replicate]
    split <;> split <;> first | rfl | omega
  | succ c ih =>
    intro p m hm
    obtain ⟨m', rfl⟩ : ∃ m', m = m' + 1 := ⟨m - 1, by omega⟩
    rw [List.replicate_succ, fastMixMono]
    have hip : uif ((p : Nat) : ℚ) = p := uif_natCast p
    have hT : ((p : Nat) : ℚ) - ((uif ((p : Nat) : ℚ) : Nat) : ℚ) = 0 := by
      rw [hip]; ring
    have hpos : ((p : Nat) : ℚ) + 1 = (((p + 1 : Nat)) : ℚ) := by push_cast; ring
    have hv : lerp (d (uif ((p : Nat) : ℚ)))
        (d (uif ((p : Nat) : ℚ) + 1))
        (((p : Nat) : ℚ) - ((uif ((p : Nat) : ℚ) : Nat) : ℚ)) = d p := by
      rw [hT, lerp_zero, hip]
    obtain ⟨ih1, ih2, ih3⟩ := ih (p + 1) m' (by omega)
    rw [hpos]
    refine ⟨?_, ?_, ?_⟩
    · simp only [ih1]
      congr 1
      omega
    · simp only [List.length_cons, ih2]
    · intro j
      cases j with
      | zero =>
        simp only [List.getD_cons_zero, hv]
        rw [if_pos (by omega)]
        norm_num
      | succ j =>
        simp only [List.getD_cons_succ, ih3 j]
        have hidx : p + 1 + j = p + (j + 1) := by omega
        rw [hidx]
        split <;> split <;> first | rfl | omega

end sound

namespace sound

theorem setStopMode_sound_none (s : PlayingSound) (h : s.sound = none) :
    s.setStopMode = { s with waitingStart := false } := by
  rw [PlayingSound.setStopMode, if_pos (by rw [h]; rfl)]

/-- The general mono loop never resurrects an asset reference: once the
voice's `sound` is null it stays null through every branch (including the
post-fade "zombie" samples, whose `setStopMode` call only clears
`waitingStart`). -/
theorem slowMixMono_sound_none (d : Nat → ℚ) (adv wL wR inv : ℚ) :
    ∀ (count : Nat) (s : PlayingSound) (mix : List Frame), s.sound = none →
      ((slowMixMono d adv wL wR inv count s mix).1).sound = none := by
  intro count
  induction count with
  | zero => intro s mix h; rw [slowMixMono]; exact h
  | succ c ih =>
    intro s mix h
    cases mix with
    | nil => rw [slowMixMono]; exact h
    | cons f rest =>
      rw [slowMixMono]
      simp only []
      split
      · -- waiting branch
        split <;> exact ih _ rest h
      · split
        · -- play branch
          split
          · split
            · exact ih _ rest h
            · refine ih _ rest ?_
              rw [setStopMode_sound_none _ (by exact h)]
              exact h
          · exact ih _ rest h
        · -- stop-fade branch
          exact ih _ rest h

/-- The general mono loop preserves buffer length and leaves frames at or
beyond `count` untouched. -/
theorem slowMixMono_frames (d : Nat → ℚ) (adv wL wR inv : ℚ) :
    ∀ (count : Nat) (s : PlayingSound) (mix : List Frame),
      ((slowMixMono d adv wL wR inv count s mix).2).length = mix.length ∧
      ∀ j, count ≤ j →
        ((slowMixMono d adv wL wR inv count s mix).2).getD j ((0 : ℚ), (0 : ℚ)) =
          mix.getD j ((0 : ℚ), (0 : ℚ)) := by
  intro count
  induction count with
  | zero => intro s mix; rw [slowMixMono]; exact ⟨rfl, fun j _ => rfl⟩
  | succ c ih =>
    intro s mix
    cases mix with
    | nil => rw [slowMixMono]; exact ⟨rfl, fun j _ => rfl⟩
    | cons f rest =>
      rw [slowMixMono]
      simp only []
      constructor
      · split
        · simp [(ih _ rest).1]
        · split
          · simp [(ih _ rest).1]
          · simp [(ih _ rest).1]
      · intro j hj
        obtain ⟨j', rfl⟩ : ∃ j', j = j' + 1 := ⟨j - 1, by omega⟩
        split
        · simp only [List.getD_cons_succ]
          exact (ih _ rest).2 j' (by omega)
        · split
          · simp only [List.getD_cons_succ]
            exact (ih _ rest).2 j' (by omega)
          · simp only [List.getD_cons_succ]
            exact (ih _ rest).2 j' (by omega)

end sound

namespace sound

theorem playingAt_succ (L : List ℚ) (S : Int) (p : Nat) :
    { playingAt L S p with
        volumeL := smooth (playingAt L S p).volumeL 1
        volumeR := smooth (playingAt L S p).volumeR 1
        pos := (playingAt L S p).pos + 1 } = playingAt L S (p + 1) := by
  simp only [playingAt, smooth_self]
  simp only [PlayingSound.mk.injEq]
  norm_num [smooth_self]

/-- One identity sample of the general mono loop, no crossing: the frame
receives sample `p`, the voice advances to `playingAt (p+1)`. -/
theorem slowMixMono_play_step (L : List ℚ) (S : Int) (inv : ℚ) (p : Nat)
    (c : Nat) (f : Frame) (rest : List Frame)
    (hnc : ((p : Int) + 1) < S - 1) :
    slowMixMono (fun i => L.getD i 0) 1 1 1 inv (c + 1) (playingAt L S p) (f :: rest) =
      ((slowMixMono (fun i => L.getD i 0) 1 1 1 inv c (playingAt L S (p + 1)) rest).1,
       (f.1 + L.getD p 0, f.2 + L.getD p 0) ::
         (slowMixMono (fun i => L.getD i 0) 1 1 1 inv c (playingAt L S (p + 1)) rest).2) := by
  rw [slowMixMono]
  simp only []
  rw [if_neg (show ¬((playingAt L S p).waitingStart = true) from by simp [playingAt])]
  rw [if_pos (show (!(playingAt L S p).stopMode) = true from by simp [playingAt])]
  have hqc : ¬((playingAt L S p).pos + 1 ≥ (playingAt L S p).stopPos) := by
    show ¬(((p : Nat) : ℚ) + 1 ≥ ((S - 1 : Int) : ℚ))
    push_neg
    have : ((p : Int) + 1 : ℚ) < ((S - 1 : Int) : ℚ) := by exact_mod_cast hnc
    push_cast at this ⊢
    linarith
  rw [if_neg hqc]
  rw [playingAt_succ L S p]
  have hval : lerp (L.getD (uif (playingAt L S p).pos) 0)
      (L.getD (uif (playingAt L S p).pos + 1) 0)
      ((playingAt L S p).pos - ((uif (playingAt L S p).pos : Nat) : ℚ)) = L.getD p 0 := by
    show lerp (L.getD (uif ((p : Nat) : ℚ)) 0) (L.getD (uif ((p : Nat) : ℚ) + 1) 0)
      (((p : Nat) : ℚ) - ((uif ((p : Nat) : ℚ) : Nat) : ℚ)) = L.getD p 0
    rw [uif_natCast, sub_self, lerp_zero]
  rw [hval]
  have hvol : (playingAt L S p).volumeL = 1 := rfl
  have hvor : (playingAt L S p).volumeR = 1 := rfl
  rw [hvol, hvor, mul_one]

/-- One crossing sample: the frame still receives sample `p`, and the voice
enters the stopped regime with a null asset reference. -/
theorem slowMixMono_cross_step (L : List ℚ) (S : Int) (inv : ℚ) (p : Nat)
    (c : Nat) (f : Frame) (rest : List Frame)
    (hc : ((p : Int) + 1) ≥ S - 1) (hp : (p : Int) ≤ S - 2) :
    ∃ w : PlayingSound, w.sound = none ∧
    slowMixMono (fun i => L.getD i 0) 1 1 1 inv (c + 1) (playingAt L S p) (f :: rest) =
      ((slowMixMono (fun i => L.getD i 0) 1 1 1 inv c w rest).1,
       (f.1 + L.getD p 0, f.2 + L.getD p 0) ::
         (slowMixMono (fun i => L.getD i 0) 1 1 1 inv c w rest).2) := by
  rw [slowMixMono]
  simp only []
  rw [if_neg (show ¬((playingAt L S p).waitingStart = true) from by simp [playingAt])]
  rw [if_pos (show (!(playingAt L S p).stopMode) = true from by simp [playingAt])]
  have hqc : (playingAt L S p).pos + 1 ≥ (playingAt L S p).stopPos := by
    show ((p : Nat) : ℚ) + 1 ≥ ((S - 1 : Int) : ℚ)
    have : ((S - 1 : Int) : ℚ) ≤ ((p : Int) + 1 : ℚ) := by exact_mod_cast hc
    push_cast at this ⊢
    linarith
  rw [if_pos hqc]
  rw [if_neg (show ¬(({ playingAt L S p with
      volumeL := smooth (playingAt L S p).volumeL 1
      volumeR := smooth (playingAt L S p).volumeR 1
      pos := (playingAt L S p).pos + 1 } : PlayingSound).loop = true) from by simp [playingAt])]
  have hval : lerp (L.getD (uif (playingAt L S p).pos) 0)
      (L.getD (uif (playingAt L S p).pos + 1) 0)
      ((playingAt L S p).pos - ((uif (playingAt L S p).pos : Nat) : ℚ)) = L.getD p 0 := by
    show lerp (L.getD (uif ((p : Nat) : ℚ)) 0) (L.getD (uif ((p : Nat) : ℚ) + 1) 0)
      (((p : Nat) : ℚ) - ((uif ((p : Nat) : ℚ) : Nat) : ℚ)) = L.getD p 0
    rw [uif_natCast, sub_self, lerp_zero]
  rw [hval]
  have hvol : (playingAt L S p).volumeL = 1 := rfl
  have hvor : (playingAt L S p).volumeR = 1 := rfl
  rw [hvol, hvor, mul_one]
  refine ⟨_, ?_, rfl⟩
  exact (setStopMode_fields _ (monoAsset L S) rfl rfl).2

end sound

namespace sound

/-- The general mono loop on the single playing voice over a zeroed buffer:
every sample strictly before the termination bound is emitted verbatim
(duplicated to both channels), and the voice either remains in the playing
regime at the advanced position or has crossed `stopPos` and carries a null
asset reference. -/
theorem slowMixMono_play (L : List ℚ) (S : Int) (inv : ℚ) :
    ∀ (count p m : Nat), (p : Int) ≤ S - 2 → count ≤ m →
      (∀ j, j < count → ((p : Int) + j) < S - 1 →
        (slowMixMono (fun i => L.getD i 0) 1 1 1 inv count (playingAt L S p)
          (List.replicate m ((0 : ℚ), (0 : ℚ)))).2.getD j ((0 : ℚ), (0 : ℚ)) =
          (L.getD (p + j) 0, L.getD (p + j) 0)) ∧
      (if ((p : Int) + count) < S - 1 then
        (slowMixMono (fun i => L.getD i 0) 1 1 1 inv count (playingAt L S p)
          (List.replicate m ((0 : ℚ), (0 : ℚ)))).1 = playingAt L S (p + count)
      else ((slowMixMono (fun i => L.getD i 0) 1 1 1 inv count (playingAt L S p)
          (List.replicate m ((0 : ℚ), (0 : ℚ)))).1).sound = none) := by
  intro count
  induction count with
  | zero =>
    intro p m hp hm
    refine ⟨fun j hj => absurd hj (by omega), ?_⟩
    rw [if_pos (by push_cast; omega)]
    rw [slowMixMono]
    simp
  | succ c ih =>
    intro p m hp hm
    obtain ⟨m', rfl⟩ : ∃ m', m = m' + 1 := ⟨m - 1, by omega⟩
    rw [List.replicate_succ]
    by_cases hnc : ((p : Int) + 1) < S - 1
    · rw [slowMixMono_play_step L S inv p c ((0 : ℚ), (0 : ℚ))
        (List.replicate m' ((0 : ℚ), (0 : ℚ))) hnc]
      obtain ⟨ihf, ihs⟩ := ih (p + 1) m' (by omega) (by omega)
      constructor
      · intro j hj hjb
        cases j with
        | zero =>
          simp only [List.getD_cons_zero]
          norm_num
        | succ j =>
          simp only [List.getD_cons_succ]
          have := ihf j (by omega) (by push_cast at hjb ⊢; omega)
          rw [this]
          have : p + 1 + j = p + (j + 1) := by omega
          rw [this]
      · by_cases hcc : ((p : Int) + (c + 1 : Nat)) < S - 1
        · rw [if_pos hcc]
          rw [if_pos (by push_cast at hcc ⊢; omega)] at ihs
          rw [ihs]
          have : p + 1 + c = p + (c + 1) := by omega
          rw [this]
        · rw [if_neg hcc]
          rw [if_neg (by push_cast at hcc ⊢; omega)] at ihs
          exact ihs
    · obtain ⟨w, hw, hstep⟩ := slowMixMono_cross_step L S inv p c ((0 : ℚ), (0 : ℚ))
        (List.replicate m' ((0 : ℚ), (0 : ℚ))) (by omega) hp
      rw [hstep]
      constructor
      · intro j hj hjb
        cases j with
        | zero =>
          simp only [List.getD_cons_zero]
          norm_num
        | succ j =>
          exfalso
          push_cast at hjb
          omega
      · rw [if_neg (by push_cast; omega)]
        exact slowMixMono_sound_none _ _ _ _ _ c w _ hw

end sound

namespace sound

theorem playingAt_set_pos (L : List ℚ) (S : Int) (p q : Nat) :
    { playingAt L S p with pos := ((q : Nat) : ℚ) } = playingAt L S q := by
  simp only [playingAt]

/-- `mixTo` on the single playing voice: identity frames strictly before the
termination bound, zeros at and beyond `count`, length preserved, and the
voice either still playing at `p + count` or stopped with a null asset. -/
theorem mixTo_play (L : List ℚ) (S : Int) :
    ∀ (count m p : Nat) (freq : Int) (bt : ℚ), (p : Int) ≤ S - 2 → count ≤ m →
      (∀ j, j < count → ((p : Int) + j) < S - 1 →
        ((playingAt L S p).mixTo 1 (List.replicate m ((0 : ℚ), (0 : ℚ))) count freq (1 / ((48000 : Int) : ℚ)) bt).2.getD j ((0 : ℚ), (0 : ℚ)) =
          (L.getD (p + j) 0, L.getD (p + j) 0)) ∧
      (∀ j, count ≤ j →
        ((playingAt L S p).mixTo 1 (List.replicate m ((0 : ℚ), (0 : ℚ))) count freq (1 / ((48000 : Int) : ℚ)) bt).2.getD j ((0 : ℚ), (0 : ℚ)) = ((0 : ℚ), (0 : ℚ))) ∧
      ((playingAt L S p).mixTo 1 (List.replicate m ((0 : ℚ), (0 : ℚ))) count freq (1 / ((48000 : Int) : ℚ)) bt).2.length = m ∧
      (if ((p : Int) + count) < S - 1 then
        ((playingAt L S p).mixTo 1 (List.replicate m ((0 : ℚ), (0 : ℚ))) count freq (1 / ((48000 : Int) : ℚ)) bt).1 = playingAt L S (p + count)
      else (((playingAt L S p).mixTo 1 (List.replicate m ((0 : ℚ), (0 : ℚ))) count freq (1 / ((48000 : Int) : ℚ)) bt).1).sound = none) := by
  intro count m p freq bt hp hm
  have hs : (playingAt L S p).sound = some (monoAsset L S) := rfl
  have hd : (monoAsset L S).data = some L := rfl
  rw [PlayingSound.mixTo]
  rw [hs]
  simp only [hd]
  have hadv : ((monoAsset L S).frequency : ℚ) * (1 / ((48000 : Int) : ℚ)) *
      (playingAt L S p).pitch = 1 := by
    show ((48000 : Int) : ℚ) * (1 / ((48000 : Int) : ℚ)) * 1 = 1
    norm_num
  rw [hadv]
  by_cases hfast : ((p : Int) + count) < S - 1
  · have hcond : (playingAt L S p).stopMode = false ∧
        (playingAt L S p).waitingStart = false ∧
        (playingAt L S p).volumeL > 0 ∧ (playingAt L S p).volumeR > 0 ∧
        wishVolumeL 1 (playingAt L S p) = (playingAt L S p).volumeL ∧
        wishVolumeR 1 (playingAt L S p) = (playingAt L S p).volumeR ∧
        (playingAt L S p).pos + 1 * (count : ℚ) < (playingAt L S p).stopPos := by
      refine ⟨rfl, rfl, by norm_num [playingAt], by norm_num [playingAt], ?_, ?_, ?_⟩
      · show (1 : ℚ) * (playingAt L S p).volume * min (1 + (playingAt L S p).pan) 1 = _
        show (1 : ℚ) * 1 * min (1 + 0) 1 = 1
        norm_num
      · show (1 : ℚ) * (playingAt L S p).volume * min (1 - (playingAt L S p).pan) 1 = _
        show (1 : ℚ) * 1 * min (1 - 0) 1 = 1
        norm_num
      · show ((p : Nat) : ℚ) + 1 * (count : ℚ) < ((S - 1 : Int) : ℚ)
        rw [one_mul]
        exact_mod_cast hfast
    rw [if_pos hcond]
    rw [if_pos (show (playingAt L S p).channels = 1 from rfl)]
    obtain ⟨f1, f2, f3⟩ := fastMixMono_spec (fun i => L.getD i 0) count p m hm
    have hvl : (playingAt L S p).volumeL = 1 := rfl
    have hvr : (playingAt L S p).volumeR = 1 := rfl
    have hps : (playingAt L S p).pos = ((p : Nat) : ℚ) := rfl
    rw [hvl, hvr, hps]
    refine ⟨?_, ?_, ?_, ?_⟩
    · intro j hj hjb
      rw [f3 j, if_pos hj]
    · intro j hj
      rw [f3 j, if_neg (by omega)]
    · exact f2
    · rw [if_pos hfast]
      show ({ playingAt L S p with pos := _ } : PlayingSound) = _
      rw [f1, playingAt_set_pos]
  · rw [if_neg (by
      intro hcond
      have h7 := hcond.2.2.2.2.2.2
      have h7' : ((p : Nat) : ℚ) + 1 * (count : ℚ) < ((S - 1 : Int) : ℚ) := h7
      rw [one_mul] at h7'
      have : ((p : Int) + count) < S - 1 := by exact_mod_cast h7'
      exact hfast this)]
    rw [if_neg (by
      intro hcond
      have := hcond.1
      simp [playingAt] at this)]
    rw [if_pos (show (playingAt L S p).channels = 1 from rfl)]
    have hwl : wishVolumeL 1 (playingAt L S p) = 1 := by
      show (1 : ℚ) * (playingAt L S p).volume * min (1 + (playingAt L S p).pan) 1 = 1
      show (1 : ℚ) * 1 * min (1 + 0) 1 = 1
      norm_num
    have hwr : wishVolumeR 1 (playingAt L S p) = 1 := by
      show (1 : ℚ) * (playingAt L S p).volume * min (1 - (playingAt L S p).pan) 1 = 1
      show (1 : ℚ) * 1 * min (1 - 0) 1 = 1
      norm_num
    rw [hwl, hwr]
    obtain ⟨g1, g2⟩ := slowMixMono_play L S (1 / ((48000 : Int) : ℚ)) count p m hp hm
    refine ⟨g1, ?_, (slowMixMono_frames _ _ _ _ _ count _ _).1.trans (by simp), g2⟩
    intro j hj
    rw [(slowMixMono_frames _ _ _ _ _ count _ _).2 j hj]
    rw [getD_replicate]
    split <;> rfl

end sound

namespace sound

theorem mixTo_sound_none (s : PlayingSound) (master : ℚ) (mix : List Frame)
    (count : Nat) (freq : Int) (inv bt : ℚ) (h : s.sound = none) :
    s.mixTo master mix count freq inv bt = (s, mix) := by
  rw [PlayingSound.mixTo, h]

/-- A chunk over the table that is empty except for slot 1. -/
theorem mixChunk_single (master : ℚ) (v : PlayingSound) (buf : List Frame)
    (count : Nat) (freq : Int) (inv bt : ℚ) :
    mixChunk master ((List.replicate 128 PlayingSound.init).set 1 v) buf count freq inv bt =
      ((List.replicate 128 PlayingSound.init).set 1
        (if v.isEmpty then v else (v.mixTo master buf count freq inv bt).1),
       if v.isEmpty then buf else (v.mixTo master buf count freq inv bt).2) := by
  have h1 : ∀ w : PlayingSound, (List.replicate 128 PlayingSound.init).set 1 w =
      PlayingSound.init :: w :: List.replicate 126 PlayingSound.init := fun w => rfl
  rw [h1, h1]
  rw [mixChunk]
  rw [if_pos (show PlayingSound.init.isEmpty = true from rfl)]
  rw [mixChunk]
  by_cases he : v.isEmpty
  · rw [if_pos he, if_pos he, if_pos he]
    rw [mixChunk_skip master (List.replicate 126 PlayingSound.init)
      (fun w hw => by rw [List.eq_of_mem_replicate hw]; rfl)]
  · rw [if_neg he, if_neg he, if_neg he]
    rw [mixChunk_skip master (List.replicate 126 PlayingSound.init)
      (fun w hw => by rw [List.eq_of_mem_replicate hw]; rfl)]

/-- Once the slot-1 voice has a null asset reference, the whole loop leaves
the output buffer untouched. -/
theorem fillLoop_stuck (master : ℚ) (freq : Int) (inv : ℚ)
    (v : PlayingSound) (hv : v.sound = none) :
    ∀ (fuel : Nat) (buf : List Frame) (samples tsp : Int) (ttp : ℚ),
      (fillLoop master freq inv fuel ((List.replicate 128 PlayingSound.init).set 1 v) buf samples tsp ttp).2.1 = buf := by
  intro fuel
  induction fuel with
  | zero => intro buf samples tsp ttp; rfl
  | succ n ih =>
    intro buf samples tsp ttp
    rw [fillLoop]
    by_cases hs : samples ≤ 0
    · rw [if_pos hs]
    · rw [if_neg hs]
      simp only [mixChunk_single, mixTo_sound_none v master _ _ _ _ _ hv, ite_self]
      rw [ih]
      exact List.take_append_drop 256 buf

/-- `mixChunk_single` specialised to a busy slot-1 voice. -/
theorem mixChunk_single_busy (master : ℚ) (v : PlayingSound) (hv : v.isEmpty = false)
    (buf : List Frame) (count : Nat) (freq : Int) (inv bt : ℚ) :
    mixChunk master ((List.replicate 128 PlayingSound.init).set 1 v) buf count freq inv bt =
      ((List.replicate 128 PlayingSound.init).set 1 (v.mixTo master buf count freq inv bt).1,
       (v.mixTo master buf count freq inv bt).2) := by
  rw [mixChunk_single, hv]
  simp

theorem eq_replicate_zero (l : List Frame) (k : Nat) (hl : l.length = k)
    (h : ∀ j, j < k → l.getD j ((0 : ℚ), (0 : ℚ)) = ((0 : ℚ), (0 : ℚ))) :
    l = List.replicate k ((0 : ℚ), (0 : ℚ)) := by
  apply List.ext_getElem
  · simp [hl]
  · intro i h1 h2
    have hi : i < k := by omega
    have := h i hi
    rw [List.getD_eq_getElem _ _ h1] at this
    rw [this, List.getElem_replicate]

theorem fillLoop_stop_buf (master : ℚ) (freq : Int) (inv : ℚ) (fuel : Nat)
    (voices : List PlayingSound) (buf : List Frame) (samples tsp : Int) (ttp : ℚ)
    (hs : samples ≤ 0) :
    (fillLoop master freq inv fuel voices buf samples tsp ttp).2.1 = buf := by
  rw [fillLoop_stop master freq inv fuel voices buf samples tsp ttp hs]

/-- One busy-voice iteration, restricted to the produced buffer: the chunk's
first 256 frames are what `mixTo` wrote, the rest comes from the recursive
call on the advanced state. -/
theorem fillLoop_busy_buf (freq : Int) (inv : ℚ) (n : Nat) (v : PlayingSound) (hv : v.isEmpty = false)
    (buf : List Frame) (samples tsp : Int) (ttp : ℚ) (hs : 0 < samples) :
    (fillLoop 1 freq inv (n + 1) ((List.replicate 128 PlayingSound.init).set 1 v) buf samples tsp ttp).2.1 =
      (v.mixTo 1 buf (min samples 256).toNat freq inv (((min samples 256 : Int) : ℚ) * inv)).2.take 256 ++
      (fillLoop 1 freq inv n
        ((List.replicate 128 PlayingSound.init).set 1 (v.mixTo 1 buf (min samples 256).toNat freq inv (((min samples 256 : Int) : ℚ) * inv)).1)
        ((v.mixTo 1 buf (min samples 256).toNat freq inv (((min samples 256 : Int) : ℚ) * inv)).2.drop 256)
        (samples - 256) (tsp + min (samples - 256) 256) (ttp + ((min (samples - 256) 256 : Int) : ℚ) * inv)).2.1 := by
  rw [fillLoop, if_neg (by omega)]
  simp only [mixChunk_single_busy 1 v hv]

end sound

namespace sound

set_option maxRecDepth 40000 in
/-- Chunk-loop invariant for the single playing voice: across the whole
callback, frame `j` of the produced buffer equals sample `p + j` of the
asset while `p + j` is left of the stop position, and every frame whose
absolute index is at least `S + 254` is exactly zero (the stop position is
crossed inside some 256-frame chunk; frames of that chunk beyond the
crossing are zero by the mix loop, and all later chunks are zero because
the voice's asset reference is null). -/
theorem fillLoop_play (L : List ℚ) (S : Int) (freq : Int) :
    ∀ (fuel : Nat) (samples : Int) (p m : Nat) (tsp : Int) (ttp : ℚ),
      m = samples.toNat → samples ≤ 256 * (fuel : Int) → (p : Int) ≤ S - 2 →
      (∀ j, j < m → ((p : Int) + j) < S - 1 →
        (fillLoop 1 freq (1 / ((48000 : Int) : ℚ)) fuel
          ((List.replicate 128 PlayingSound.init).set 1 (playingAt L S p))
          (List.replicate m ((0 : ℚ), (0 : ℚ))) samples tsp ttp).2.1.getD j ((0 : ℚ), (0 : ℚ)) =
          (L.getD (p + j) 0, L.getD (p + j) 0)) ∧
      (∀ j : Nat, S + 254 ≤ (p : Int) + (j : Int) →
        (fillLoop 1 freq (1 / ((48000 : Int) : ℚ)) fuel
          ((List.replicate 128 PlayingSound.init).set 1 (playingAt L S p))
          (List.replicate m ((0 : ℚ), (0 : ℚ))) samples tsp ttp).2.1.getD j ((0 : ℚ), (0 : ℚ)) = ((0 : ℚ), (0 : ℚ))) ∧
      (fillLoop 1 freq (1 / ((48000 : Int) : ℚ)) fuel
        ((List.replicate 128 PlayingSound.init).set 1 (playingAt L S p))
        (List.replicate m ((0 : ℚ), (0 : ℚ))) samples tsp ttp).2.1.length = m := by
  intro fuel
  induction fuel with
  | zero =>
    intro samples p m tsp ttp hm hf hp
    have hm0 : m = 0 := by omega
    subst hm0
    refine ⟨fun j hj _ => by omega, fun j _ => rfl, rfl⟩
  | succ n ih =>
    intro samples p m tsp ttp hm hf hp
    by_cases hstop : samples ≤ 0
    · rw [fillLoop, if_pos hstop]
      have hm0 : m = 0 := by omega
      subst hm0
      refine ⟨fun j hj _ => by omega, fun j _ => rfl, rfl⟩
    · obtain ⟨A, B, C, D⟩ := mixTo_play L S (min samples 256).toNat m p freq
        (((min samples 256 : Int) : ℚ) * (1 / ((48000 : Int) : ℚ))) hp (by omega)
      rw [fillLoop_busy_buf freq (1 / ((48000 : Int) : ℚ)) n (playingAt L S p) rfl
        (List.replicate m ((0 : ℚ), (0 : ℚ))) samples tsp ttp (by omega)]
      by_cases hcr : ((p : Int) + ((min samples 256).toNat : Int)) < S - 1
      · rw [if_pos hcr] at D
        rw [D]
        by_cases h256 : samples ≤ 256
        · rw [fillLoop_stop_buf 1 freq (1 / ((48000 : Int) : ℚ)) n _ _ _ _ _ (by omega),
            List.take_append_drop]
          refine ⟨fun j hj hjS => A j (by omega) hjS, fun j hjz => B j (by omega), C⟩
        · have hrest : ((playingAt L S p).mixTo 1 (List.replicate m ((0 : ℚ), (0 : ℚ)))
              (min samples 256).toNat freq (1 / ((48000 : Int) : ℚ))
              (((min samples 256 : Int) : ℚ) * (1 / ((48000 : Int) : ℚ)))).2.drop 256 =
              List.replicate (m - 256) ((0 : ℚ), (0 : ℚ)) := by
            apply eq_replicate_zero
            · rw [List.length_drop, C]
            · intro j hj
              rw [getD_drop]
              exact B (256 + j) (by omega)
          rw [hrest]
          obtain ⟨IA, IB, IC⟩ := ih (samples - 256) (p + (min samples 256).toNat) (m - 256)
            (tsp + min (samples - 256) 256)
            (ttp + ((min (samples - 256) 256 : Int) : ℚ) * (1 / ((48000 : Int) : ℚ)))
            (by omega) (by omega) (by omega)
          have hlt : ∀ j, j < 256 → j < (((playingAt L S p).mixTo 1
              (List.replicate m ((0 : ℚ), (0 : ℚ))) (min samples 256).toNat freq
              (1 / ((48000 : Int) : ℚ))
              (((min samples 256 : Int) : ℚ) * (1 / ((48000 : Int) : ℚ)))).2.take 256).length := by
            intro j hj
            rw [List.length_take, C]
            omega
          have hlen : (((playingAt L S p).mixTo 1
              (List.replicate m ((0 : ℚ), (0 : ℚ))) (min samples 256).toNat freq
              (1 / ((48000 : Int) : ℚ))
              (((min samples 256 : Int) : ℚ) * (1 / ((48000 : Int) : ℚ)))).2.take 256).length = 256 := by
            rw [List.length_take, C]
            omega
          refine ⟨?_, ?_, ?_⟩
          · intro j hj hjS
            rcases Nat.lt_or_ge j 256 with hj2 | hj2
            · rw [List.getD_append _ _ _ _ (hlt j hj2)]
              rw [getD_take _ _ _ _ hj2]
              exact A j (by omega) hjS
            · rw [List.getD_append_right _ _ _ _ (by omega)]
              rw [hlen]
              have := IA (j - 256) (by omega) (by omega)
              have hidx : p + (min samples 256).toNat + (j - 256) = p + j := by omega
              rw [hidx] at this
              exact this
          · intro j hjz
            have hj2 : 256 ≤ j := by omega
            rw [List.getD_append_right _ _ _ _ (by omega)]
            rw [hlen]
            exact IB (j - 256) (by omega)
          · rw [List.length_append, hlen, IC]
            omega
      · rw [if_neg hcr] at D
        rw [fillLoop_stuck 1 freq (1 / ((48000 : Int) : ℚ)) _ D n, List.take_append_drop]
        refine ⟨fun j hj hjS => A j (by omega) hjS, fun j hjz => B j (by omega), C⟩

end sound

namespace sound

/-- `play_sound_internal` on the fresh state with unit volume/pitch, centre
pan, full range `[0, S]` seconds and no defer writes exactly the
`playingAt … 0` voice into the allocated slot 1. -/
theorem playedVoice_fresh (L : List ℚ) (S : Int) (hS : 3 ≤ S) :
    playedVoice 1 (monoAsset L S) 1 1 0 0 ((S : Int) : ℚ) false 0
      { PlayingSound.init with version := 128 } = playingAt L S 0 := by
  rw [playedVoice, playingAt]
  simp only [monoAsset, PlayingSound.init]
  have hA : clampQ ((ratTrunc ((0 : ℚ) * ((48000 : Int) : ℚ)) : Int) : ℚ) 0
      ((S - 1 : Int) : ℚ) = 0 := by
    rw [zero_mul]
    rw [show ratTrunc 0 = 0 from by rw [ratTrunc, if_neg (lt_irrefl 0)]; exact Int.floor_zero]
    rw [Int.cast_zero, clampQ, if_neg (lt_irrefl 0),
      if_neg (not_lt.mpr (by exact_mod_cast (by omega : (0 : Int) ≤ S - 1)))]
  rw [hA]
  have hB : clampQ ((ratTrunc (((S : Int) : ℚ) * ((48000 : Int) : ℚ)) : Int) : ℚ) 0
      ((S - 1 : Int) : ℚ) = ((S - 1 : Int) : ℚ) := by
    rw [← Int.cast_mul]
    rw [ratTrunc_of_nonneg _ (by exact_mod_cast (by omega : (0 : Int) ≤ S * 48000))]
    rw [Int.floor_intCast, clampQ,
      if_neg (not_lt.mpr (by exact_mod_cast (by omega : (0 : Int) ≤ S * 48000))),
      if_pos (by exact_mod_cast (by omega : S - 1 < S * 48000))]
  rw [hB]
  have hv : clampQ (1 : ℚ) 0 100000 = 1 := by rw [clampQ]; norm_num
  have hp : clampQ (0 : ℚ) (-1) 1 = 0 := by rw [clampQ]; norm_num
  have hpi : clampQ (1 : ℚ) (1 / 100000) 1000 = 1 := by rw [clampQ]; norm_num
  rw [hv, hp, hpi]
  rw [if_neg (lt_irrefl (0 : ℚ))]
  rw [max_self]
  rw [show (1 : ℚ) * 1 * min (1 + 0) 1 = 1 from by norm_num]
  rw [show (1 : ℚ) * 1 * min (1 - 0) 1 = 1 from by norm_num]
  rw [show (decide ((0 : ℚ) ≠ 0)) = false from by norm_num]
  rw [Nat.cast_zero]

end sound

namespace sound

set_option maxRecDepth 40000 in
/-- Playing the mono asset on the fresh state: slot 1 receives the
`playingAt … 0` voice, the master volume stays 1 and the handle packs slot
1 with version 128. -/
theorem play_fresh (L : List ℚ) (S : Int) (hS : 3 ≤ S) :
    (play_sound_internal freshState (monoAsset L S) 1 1 0 0 ((S : Int) : ℚ) false 0).1.voices =
      (List.replicate 128 PlayingSound.init).set 1 (playingAt L S 0) ∧
    (play_sound_internal freshState (monoAsset L S) 1 1 0 0 ((S : Int) : ℚ) false 0).1.master_volume = 1 := by
  have ha : allocIdx freshState.voices = 1 := by decide
  have hrw := play_success_eq freshState (monoAsset L S) 1 1 0 0 ((S : Int) : ℚ) false 0
      (by decide) (by rw [ha]; norm_num) (by show 2 < S; omega)
  rw [hrw, ha]
  have hprev : ({ (freshState.voices.getD (Int.toNat 1) default) with
      version := (freshState.voices.getD (Int.toNat 1) default).version + 128 } : PlayingSound) =
      ({ PlayingSound.init with version := 128 } : PlayingSound) := rfl
  rw [show freshState.master_volume = 1 from rfl]
  rw [hprev, playedVoice_fresh L S hS]
  exact ⟨rfl, rfl⟩

end sound

namespace sound

theorem fill_buffer_buf (st : SoundState) (freq samples : Int) :
    (fill_buffer_cb st freq samples).2 =
      (fillLoop st.master_volume freq (1 / (freq : ℚ)) samples.toNat st.voices
        (List.replicate samples.toNat ((0 : ℚ), (0 : ℚ))) samples
        st.total_samples_played st.total_time_played).2.1 := rfl

end sound

namespace sound

set_option maxRecDepth 40000 in
/-- **C4.** Single-voice identity then silence: play a mono asset of `S ≥ 3`
samples at the output rate 48 000 Hz on the fresh mixer with `loop = false`,
`volume = 1`, `pan = 0`, `pitch = 1`, master volume 1 and no other voices,
then run one audio callback of `n` frames.  Every output frame `t` with
`t < S - 1` (i.e. before `pos` reaches `stopPos = S - 1`) equals the input
sample `t` duplicated to L = R, and every frame at index
`≥ (S - 1) + 2066` is exactly `(0, 0)` — the output in fact reaches exact
zero within 255 frames of crossing `stopPos`, well inside the claimed
`⌈log(1/512)/log(0.997)⌉ ≈ 2066` bound. -/
theorem C4_identity_then_silence (L : List ℚ) (S : Int) (n : Nat) (hS : 3 ≤ S) :
    (∀ t : Nat, t < n → (t : Int) < S - 1 →
      (fill_buffer_cb (play_sound_internal freshState (monoAsset L S) 1 1 0 0 ((S : Int) : ℚ) false 0).1 48000 ((n : Nat) : Int)).2.getD t ((0 : ℚ), (0 : ℚ)) = (L.getD t 0, L.getD t 0)) ∧
    (∀ t : Nat, S - 1 + 2066 ≤ (t : Int) →
      (fill_buffer_cb (play_sound_internal freshState (monoAsset L S) 1 1 0 0 ((S : Int) : ℚ) false 0).1 48000 ((n : Nat) : Int)).2.getD t ((0 : ℚ), (0 : ℚ)) = ((0 : ℚ), (0 : ℚ))) ∧
    (fill_buffer_cb (play_sound_internal freshState (monoAsset L S) 1 1 0 0 ((S : Int) : ℚ) false 0).1 48000 ((n : Nat) : Int)).2.length = n := by
  obtain ⟨hv, hm⟩ := play_fresh L S hS
  rw [fill_buffer_buf, hv, hm]
  obtain ⟨A, B, C⟩ := fillLoop_play L S 48000 (Int.toNat ((n : Nat) : Int)) ((n : Nat) : Int) 0
    (Int.toNat ((n : Nat) : Int))
    (play_sound_internal freshState (monoAsset L S) 1 1 0 0 ((S : Int) : ℚ) false 0).1.total_samples_played
    (play_sound_internal freshState (monoAsset L S) 1 1 0 0 ((S : Int) : ℚ) false 0).1.total_time_played
    rfl (by omega) (by omega)
  refine ⟨?_, ?_, ?_⟩
  · intro t ht htS
    have := A t (by omega) (by omega)
    rw [Nat.zero_add] at this
    exact this
  · intro t htz
    exact B t (by omega)
  · rw [C]
    omega

end sound

namespace sound

/-- Witness for C4 at `L = [1/2]`, `S = 3`, `n = 1`: the hypothesis `3 ≤ 3`
holds, the first output frame is the first sample duplicated to both
channels, and the callback produces exactly one frame. -/
theorem C4_witness :
    (3 : Int) ≤ 3 ∧
    (fill_buffer_cb (play_sound_internal freshState (monoAsset [(1 / 2 : ℚ)] 3) 1 1 0 0 (((3 : Int) : Int) : ℚ) false 0).1 48000 (((1 : Nat) : Nat) : Int)).2.getD 0 ((0 : ℚ), (0 : ℚ)) = ([(1 / 2 : ℚ)].getD 0 0, [(1 / 2 : ℚ)].getD 0 0) ∧
    (fill_buffer_cb (play_sound_internal freshState (monoAsset [(1 / 2 : ℚ)] 3) 1 1 0 0 (((3 : Int) : Int) : ℚ) false 0).1 48000 (((1 : Nat) : Nat) : Int)).2.length = 1 :=
  ⟨by norm_num,
   (C4_identity_then_silence [(1 / 2 : ℚ)] 3 1 (by norm_num)).1 0 (by norm_num) (by norm_num),
   (C4_identity_then_silence [(1 / 2 : ℚ)] 3 1 (by norm_num)).2.2⟩

end sound
